import Mathlib

/-!
Shallow embedding of the image-comparison module (`magick/compare.c`) of the
ImageMagick6 repository: the distortion engine (nine per-channel error
metrics), the difference-image renderer, and the sliding-window similarity
search.  Pixel quantities, which the C code stores in `double`, are modelled
with exact rationals wherever the source computes with field operations only,
and with real numbers where the source applies `sqrt`/`log10`; the
`INFINITY` value produced by the peak-signal-to-noise-ratio metric is
modelled with `EReal`.  External collaborators that live outside
`magick/compare.c` (pixel cache, statistics provider, perceptual-hash
provider, cropping, configuration lookup) are modelled from the
specification; every such definition carries a doc comment that starts with
`Modelled from the spec:`.
-/

namespace Compare

/-- Quantum range for the default Q16 quantum depth: pixel components range
over `0 .. 65535`. -/
def QuantumRange : ℚ := 65535

/-- `QuantumScale = 1/QuantumRange`. -/
def QuantumScale : ℚ := 1 / 65535

/-- A fully opaque opacity value (opacity `0` means opaque in ImageMagick6). -/
def OpaqueOpacity : ℚ := 0

/-- Modelled from the spec: the machine-epsilon constant (`MagickEpsilon`)
used by the reciprocal-with-epsilon policy for degenerate statistics and by
the peak-signal-to-noise-ratio infinity cutoff. -/
def MagickEpsilon : ℚ := 1 / 10 ^ 15

/-- Modelled from the spec: `MagickMaximumValue`, the largest representable
double, used to initialise the best score of the similarity search. -/
def MagickMaximumValue : ℚ := 17976931348623157 * 10 ^ 292

/-- Modelled from the spec: the fixed length of each perceptual-hash moment
vector (`MaximumNumberOfImageMoments`). -/
def MaximumNumberOfImageMoments : ℕ := 7

/-- One pixel packet: red, green, blue, opacity and the colormap index
(which stores the black channel for CMYK images). -/
structure Pixel where
  red : ℚ
  green : ℚ
  blue : ℚ
  opacity : ℚ
  index : ℚ
deriving DecidableEq

/-- An image, together with the external collaborators the comparison code
consults for it.  `pixel x y` is the virtual (boundary-extended) pixel
source, total on all coordinates; `rowOk y` tells whether the pixel cache
can service row `y` (a `false` row models a `PixelAccessFailure`);
`cropFail x y` tells whether the external `CropImage` fails at offset
`(x, y)` (an `AllocationFailure`); `phashP`/`phashQ` are the externally
supplied perceptual-hash moment vectors; `similarityThreshold` is the parsed
`compare:similarity-threshold` artifact (`none` when absent). -/
structure Image where
  rows : ℕ
  columns : ℕ
  matte : Bool
  cmyk : Bool
  fuzz : ℚ
  pixel : ℕ → ℕ → Pixel
  rowOk : ℕ → Bool
  cropFail : ℕ → ℕ → Bool
  phashP : ℕ → ℕ → ℚ
  phashQ : ℕ → ℕ → ℚ
  similarityThreshold : Option ℚ
  highlightArtifact : Option Pixel
  lowlightArtifact : Option Pixel

/-- The channel-selection bitmask restricted to the bits the comparison code
reads: `RedChannel`, `GreenChannel`, `BlueChannel`, `OpacityChannel` and
`IndexChannel`. -/
structure ChannelType where
  red : Bool
  green : Bool
  blue : Bool
  opacity : Bool
  index : Bool
deriving DecidableEq

/-- `CompositeChannels = 0x2F`: all five channel bits set. -/
def CompositeChannels : ChannelType :=
  { red := true, green := true, blue := true, opacity := true, index := true }

/-- Modelled from the spec: the `DefaultChannels` mask used by the
morphology validator.  Per the spec, `ChannelCount(image, DefaultChannels)`
counts Red/Green/Blue always, Alpha only if transparency is enabled, and
Black only for CMYK images, so the default mask requests all five
channels. -/
def DefaultChannels : ChannelType :=
  { red := true, green := true, blue := true, opacity := true, index := true }

/-- The slots of a distortion vector that the code actually addresses:
the five channel entries plus the composite entry. -/
inductive Slot where
  | red
  | green
  | blue
  | opacity
  | black
  | composite
deriving DecidableEq

/-- The distortion metrics of `MetricType`; `undefined` dispatches to the
normalized-cross-correlation branch (the `default` of the C `switch`). -/
inductive MetricType where
  | undefined
  | absoluteError
  | fuzzError
  | meanAbsoluteError
  | meanErrorPerPixel
  | meanSquaredError
  | normalizedCrossCorrelation
  | peakAbsoluteError
  | peakSignalToNoiseRatio
  | perceptualHash
  | rootMeanSquaredError
deriving DecidableEq

/-- `GetPixelAlpha`: alpha is the complement of opacity. -/
def GetPixelAlpha (p : Pixel) : ℚ := QuantumRange - p.opacity

/-- `GetNumberChannels` from `compare.c`: counts the selected channels that
are active on the image (opacity needs `matte`, index needs CMYK), with a
floor of one. -/
def GetNumberChannels (image : Image) (channel : ChannelType) : ℕ :=
  let channels :=
    (if channel.red then 1 else 0) + (if channel.green then 1 else 0) +
      (if channel.blue then 1 else 0) +
      (if channel.opacity && image.matte then 1 else 0) +
      (if channel.index && image.cmyk then 1 else 0)
  if channels = 0 then 1 else channels

/-- `ValidateImageMorphology`: the two images agree on the number of active
channels under the default mask. -/
def ValidateImageMorphology (image reconstruct : Image) : Bool :=
  GetNumberChannels image DefaultChannels = GetNumberChannels reconstruct DefaultChannels

/-- Modelled from the spec: the external `GetFuzzyColorDistance`, the
squared-distance tolerance derived from the configured fuzz factors of the
two images, floored at `sqrt (1/2)` before squaring (so the result is
`max (max fa fb) (sqrt (1/2))` squared, expressed rationally). -/
def GetFuzzyColorDistance (image reconstruct : Image) : ℚ :=
  let m := max image.fuzz reconstruct.fuzz
  if 0 ≤ m ∧ 1 / 2 ≤ m ^ 2 then m ^ 2 else 1 / 2

/-- A distortion vector: one rational per addressed slot. -/
def DVec : Type := Slot → ℚ

/-- The all-zeroes distortion vector (the `memset` initialisation). -/
def zeroVec : DVec := fun _ => 0

/-- Pointwise sum: the `distortion[i]+=channel_distortion[i]` fold. -/
def addVec (a b : DVec) : DVec := fun s => a s + b s

/-- Pointwise maximum: the fold of `GetPeakAbsoluteDistortion`. -/
def maxVec (a b : DVec) : DVec := fun s => max (a s) (b s)

/-- Sum of the per-column contributions of one row. -/
def rowSum (columns : ℕ) (f : ℕ → DVec) : DVec :=
  fun s => ∑ x ∈ Finset.range columns, f x s

/-- Maximum of the per-column contributions of one row (entries are
nonnegative, matching the zero-initialised C accumulator). -/
def rowMax (columns : ℕ) (f : ℕ → DVec) : DVec :=
  fun s => (List.range columns).foldl (fun m x => max m (f x s)) 0

/-- The row loop shared by the accumulating metrics: rows are processed in
order; a row whose pixels cannot be read flips the status to failure and
contributes nothing, and once the status is down every remaining row is
skipped (`if (status == MagickFalse) continue`); otherwise the row
contribution is merged into the running vector (the per-row critical
section). -/
def accumRows (image reconstruct : Image) (rows : ℕ)
    (merge : DVec → DVec → DVec) (row : ℕ → DVec) : Bool × DVec :=
  (List.range rows).foldl
    (fun st y =>
      if st.1 = false then st
      else if image.rowOk y && reconstruct.rowOk y then (st.1, merge st.2 (row y))
      else (false, st.2))
    (true, zeroVec)

/-- Per-pixel body of `GetAbsoluteDistortion`: the squared alpha-weighted
channel deltas are accumulated into one running `distance` in the order
red, green, blue, opacity, index, and each selected channel increments its
slot when the running `distance` (not its own delta alone) exceeds `fuzz`;
the composite slot counts the pixel when any selected channel fired.  Both
`Sa` and `Da` are driven by `image->matte` in the source. -/
def absolutePixelVec (image : Image) (channel : ChannelType) (fuzz : ℚ)
    (p q : Pixel) : DVec :=
  let Sa := QuantumScale *
    (if image.matte then GetPixelAlpha p else QuantumRange - OpaqueOpacity)
  let Da := QuantumScale *
    (if image.matte then GetPixelAlpha q else QuantumRange - OpaqueOpacity)
  let d1 : ℚ := if channel.red then 0 + (Sa * p.red - Da * q.red) ^ 2 else 0
  let r1 : Bool := channel.red && decide (fuzz < d1)
  let d2 := if channel.green then d1 + (Sa * p.green - Da * q.green) ^ 2 else d1
  let r2 : Bool := channel.green && decide (fuzz < d2)
  let d3 := if channel.blue then d2 + (Sa * p.blue - Da * q.blue) ^ 2 else d2
  let r3 : Bool := channel.blue && decide (fuzz < d3)
  let d4 := if channel.opacity && image.matte then d3 + (p.opacity - q.opacity) ^ 2 else d3
  let r4 : Bool := (channel.opacity && image.matte) && decide (fuzz < d4)
  let d5 := if channel.index && image.cmyk then d4 + (Sa * p.index - Da * q.index) ^ 2 else d4
  let r5 : Bool := (channel.index && image.cmyk) && decide (fuzz < d5)
  fun s =>
    match s with
    | .red => if r1 then 1 else 0
    | .green => if r2 then 1 else 0
    | .blue => if r3 then 1 else 0
    | .opacity => if r4 then 1 else 0
    | .black => if r5 then 1 else 0
    | .composite => if r1 || r2 || r3 || r4 || r5 then 1 else 0

/-- The fuzz threshold of `GetAbsoluteDistortion`: the fuzzy color distance
scaled by the smaller of the two active-channel counts. -/
def absoluteFuzz (image reconstruct : Image) (channel : ChannelType) : ℚ :=
  ((min (GetNumberChannels image channel) (GetNumberChannels reconstruct channel) : ℕ) : ℚ) *
    GetFuzzyColorDistance image reconstruct

/-- `GetAbsoluteDistortion`: counts, per channel and overall, the pixels
whose distance test fires. -/
def GetAbsoluteDistortion (image reconstruct : Image) (channel : ChannelType) :
    Bool × DVec :=
  let fuzz : ℚ := absoluteFuzz image reconstruct channel
  let rows := max image.rows reconstruct.rows
  let columns := max image.columns reconstruct.columns
  accumRows image reconstruct rows addVec
    (fun y => rowSum columns
      (fun x => absolutePixelVec image channel fuzz (image.pixel x y) (reconstruct.pixel x y)))

/-- Per-pixel body of `GetFuzzDistortion`: squared `QuantumScale`-normalized
alpha-weighted deltas, added to the channel slot and to the composite
slot. -/
def fuzzPixelVec (image reconstruct : Image) (channel : ChannelType)
    (p q : Pixel) : DVec :=
  let Sa := QuantumScale *
    (if image.matte then GetPixelAlpha p else QuantumRange - OpaqueOpacity)
  let Da := QuantumScale *
    (if reconstruct.matte then GetPixelAlpha q else QuantumRange - OpaqueOpacity)
  let vr : ℚ := if channel.red then (QuantumScale * (Sa * p.red - Da * q.red)) ^ 2 else 0
  let vg : ℚ := if channel.green then (QuantumScale * (Sa * p.green - Da * q.green)) ^ 2 else 0
  let vb : ℚ := if channel.blue then (QuantumScale * (Sa * p.blue - Da * q.blue)) ^ 2 else 0
  let vo : ℚ :=
    if channel.opacity && (image.matte || reconstruct.matte) then
      (QuantumScale * ((if image.matte then p.opacity else OpaqueOpacity) -
        (if reconstruct.matte then q.opacity else OpaqueOpacity))) ^ 2
    else 0
  let vk : ℚ :=
    if channel.index && image.cmyk && reconstruct.cmyk then
      (QuantumScale * (Sa * p.index - Da * q.index)) ^ 2
    else 0
  fun s =>
    match s with
    | .red => vr
    | .green => vg
    | .blue => vb
    | .opacity => vo
    | .black => vk
    | .composite => vr + vg + vb + vo + vk

/-- `GetFuzzDistortion`: mean squared normalized delta per slot; the
composite slot is additionally divided by the active channel count and
square-rooted. -/
noncomputable def GetFuzzDistortion (image reconstruct : Image) (channel : ChannelType) :
    Bool × (Slot → ℝ) :=
  let rows := max image.rows reconstruct.rows
  let columns := max image.columns reconstruct.columns
  let acc := accumRows image reconstruct rows addVec
    (fun y => rowSum columns
      (fun x => fuzzPixelVec image reconstruct channel (image.pixel x y) (reconstruct.pixel x y)))
  let v1 : DVec := fun s => acc.2 s / ((columns : ℚ) * (rows : ℚ))
  let v2 : DVec := fun s =>
    if s = .composite then v1 s / (GetNumberChannels image channel : ℚ) else v1 s
  (acc.1, fun s => if s = .composite then Real.sqrt (v2 .composite) else (v2 s : ℝ))

/-- Per-pixel body of `GetMeanAbsoluteDistortion`: `QuantumScale`-normalized
absolute alpha-weighted deltas. -/
def meanAbsolutePixelVec (image reconstruct : Image) (channel : ChannelType)
    (p q : Pixel) : DVec :=
  let Sa := QuantumScale *
    (if image.matte then GetPixelAlpha p else QuantumRange - OpaqueOpacity)
  let Da := QuantumScale *
    (if reconstruct.matte then GetPixelAlpha q else QuantumRange - OpaqueOpacity)
  let vr : ℚ := if channel.red then QuantumScale * |Sa * p.red - Da * q.red| else 0
  let vg : ℚ := if channel.green then QuantumScale * |Sa * p.green - Da * q.green| else 0
  let vb : ℚ := if channel.blue then QuantumScale * |Sa * p.blue - Da * q.blue| else 0
  let vo : ℚ :=
    if channel.opacity && image.matte then QuantumScale * |p.opacity - q.opacity| else 0
  let vk : ℚ :=
    if channel.index && image.cmyk then QuantumScale * |Sa * p.index - Da * q.index| else 0
  fun s =>
    match s with
    | .red => vr
    | .green => vg
    | .blue => vb
    | .opacity => vo
    | .black => vk
    | .composite => vr + vg + vb + vo + vk

/-- `GetMeanAbsoluteDistortion`: mean absolute normalized delta per slot;
the composite slot is additionally divided by the active channel count. -/
def GetMeanAbsoluteDistortion (image reconstruct : Image) (channel : ChannelType) :
    Bool × DVec :=
  let rows := max image.rows reconstruct.rows
  let columns := max image.columns reconstruct.columns
  let acc := accumRows image reconstruct rows addVec
    (fun y => rowSum columns
      (fun x => meanAbsolutePixelVec image reconstruct channel (image.pixel x y) (reconstruct.pixel x y)))
  let v1 : DVec := fun s => acc.2 s / ((columns : ℚ) * (rows : ℚ))
  (acc.1, fun s =>
    if s = .composite then v1 s / (GetNumberChannels image channel : ℚ) else v1 s)

/-- Per-pixel body of `GetMeanSquaredDistortion`: squared
`QuantumScale`-normalized alpha-weighted deltas (black channel requires both
images to be CMYK, opacity requires `image->matte`). -/
def meanSquaredPixelVec (image reconstruct : Image) (channel : ChannelType)
    (p q : Pixel) : DVec :=
  let Sa := QuantumScale *
    (if image.matte then GetPixelAlpha p else QuantumRange - OpaqueOpacity)
  let Da := QuantumScale *
    (if reconstruct.matte then GetPixelAlpha q else QuantumRange - OpaqueOpacity)
  let vr : ℚ := if channel.red then (QuantumScale * (Sa * p.red - Da * q.red)) ^ 2 else 0
  let vg : ℚ := if channel.green then (QuantumScale * (Sa * p.green - Da * q.green)) ^ 2 else 0
  let vb : ℚ := if channel.blue then (QuantumScale * (Sa * p.blue - Da * q.blue)) ^ 2 else 0
  let vo : ℚ :=
    if channel.opacity && image.matte then (QuantumScale * (p.opacity - q.opacity)) ^ 2 else 0
  let vk : ℚ :=
    if channel.index && image.cmyk && reconstruct.cmyk then
      (QuantumScale * (Sa * p.index - Da * q.index)) ^ 2
    else 0
  fun s =>
    match s with
    | .red => vr
    | .green => vg
    | .blue => vb
    | .opacity => vo
    | .black => vk
    | .composite => vr + vg + vb + vo + vk

/-- `GetMeanSquaredDistortion`: mean squared normalized delta per slot; the
composite slot is additionally divided by the active channel count. -/
def GetMeanSquaredDistortion (image reconstruct : Image) (channel : ChannelType) :
    Bool × DVec :=
  let rows := max image.rows reconstruct.rows
  let columns := max image.columns reconstruct.columns
  let acc := accumRows image reconstruct rows addVec
    (fun y => rowSum columns
      (fun x => meanSquaredPixelVec image reconstruct channel (image.pixel x y) (reconstruct.pixel x y)))
  let v1 : DVec := fun s => acc.2 s / ((columns : ℚ) * (rows : ℚ))
  (acc.1, fun s =>
    if s = .composite then v1 s / (GetNumberChannels image channel : ℚ) else v1 s)

/-- Per-pixel body of `GetMeanErrorPerPixel`: unnormalized absolute
alpha-weighted deltas (quantum units). -/
def meppPixelVec (image reconstruct : Image) (channel : ChannelType)
    (p q : Pixel) : DVec :=
  let Sa := QuantumScale *
    (if image.matte then GetPixelAlpha p else QuantumRange - OpaqueOpacity)
  let Da := QuantumScale *
    (if reconstruct.matte then GetPixelAlpha q else QuantumRange - OpaqueOpacity)
  let vr : ℚ := if channel.red then |Sa * p.red - Da * q.red| else 0
  let vg : ℚ := if channel.green then |Sa * p.green - Da * q.green| else 0
  let vb : ℚ := if channel.blue then |Sa * p.blue - Da * q.blue| else 0
  let vo : ℚ := if channel.opacity && image.matte then |p.opacity - q.opacity| else 0
  let vk : ℚ :=
    if channel.index && image.cmyk && reconstruct.cmyk then |Sa * p.index - Da * q.index| else 0
  fun s =>
    match s with
    | .red => vr
    | .green => vg
    | .blue => vb
    | .opacity => vo
    | .black => vk
    | .composite => vr + vg + vb + vo + vk

/-- `GetMeanErrorPerPixel`: accumulates the absolute-delta vector (it is not
normalized) and returns it; the three legacy side statistics
(`mean_error_per_pixel`, `normalized_mean_error`, `normalized_maximum_error`)
written onto the image are not needed by any claim and are omitted from the
result; a row read failure stops the loop (`break`), dropping the remaining
rows. -/
def GetMeanErrorPerPixel (image reconstruct : Image) (channel : ChannelType) :
    Bool × DVec :=
  let rows := max image.rows reconstruct.rows
  let columns := max image.columns reconstruct.columns
  accumRows image reconstruct rows addVec
    (fun y => rowSum columns
      (fun x => meppPixelVec image reconstruct channel (image.pixel x y) (reconstruct.pixel x y)))

/-- Per-pixel body of `GetPeakAbsoluteDistortion`: each selected channel
contributes its normalized absolute delta to its own slot and to the
composite slot, combined by maximum. -/
def peakPixelVec (image reconstruct : Image) (channel : ChannelType)
    (p q : Pixel) : DVec :=
  let Sa := QuantumScale *
    (if image.matte then GetPixelAlpha p else QuantumRange - OpaqueOpacity)
  let Da := QuantumScale *
    (if reconstruct.matte then GetPixelAlpha q else QuantumRange - OpaqueOpacity)
  let vr : ℚ := if channel.red then QuantumScale * |Sa * p.red - Da * q.red| else 0
  let vg : ℚ := if channel.green then QuantumScale * |Sa * p.green - Da * q.green| else 0
  let vb : ℚ := if channel.blue then QuantumScale * |Sa * p.blue - Da * q.blue| else 0
  let vo : ℚ :=
    if channel.opacity && image.matte then QuantumScale * |p.opacity - q.opacity| else 0
  let vk : ℚ :=
    if channel.index && image.cmyk && reconstruct.cmyk then
      QuantumScale * |Sa * p.index - Da * q.index|
    else 0
  fun s =>
    match s with
    | .red => vr
    | .green => vg
    | .blue => vb
    | .opacity => vo
    | .black => vk
    | .composite => max (max (max (max vr vg) vb) vo) vk

/-- `GetPeakAbsoluteDistortion`: the maximum normalized absolute delta seen,
per slot. -/
def GetPeakAbsoluteDistortion (image reconstruct : Image) (channel : ChannelType) :
    Bool × DVec :=
  let rows := max image.rows reconstruct.rows
  let columns := max image.columns reconstruct.columns
  accumRows image reconstruct rows maxVec
    (fun y => rowMax columns
      (fun x => peakPixelVec image reconstruct channel (image.pixel x y) (reconstruct.pixel x y)))

/-- The pixel component a channel slot reads, as used by the statistics
provider and the cross-correlation metric. -/
def slotValue (p : Pixel) : Slot → ℚ
  | .red => p.red
  | .green => p.green
  | .blue => p.blue
  | .opacity => p.opacity
  | .black => p.index
  | .composite => 0

/-- Modelled from the spec: the external `StatisticsProvider`
(`GetImageChannelStatistics`) supplies the whole-image per-channel mean, in
quantum units, over the image's own area. -/
def channelMean (image : Image) (s : Slot) : ℚ :=
  (∑ y ∈ Finset.range image.rows, ∑ x ∈ Finset.range image.columns,
      slotValue (image.pixel x y) s) /
    ((image.columns : ℚ) * (image.rows : ℚ))

/-- Modelled from the spec: the population variance behind the provider's
standard deviation (mean of squares minus square of mean). -/
def channelVariance (image : Image) (s : Slot) : ℚ :=
  (∑ y ∈ Finset.range image.rows, ∑ x ∈ Finset.range image.columns,
      slotValue (image.pixel x y) s ^ 2) /
      ((image.columns : ℚ) * (image.rows : ℚ)) -
    channelMean image s ^ 2

/-- Modelled from the spec: the provider's per-channel standard deviation. -/
noncomputable def standardDeviation (image : Image) (s : Slot) : ℝ :=
  Real.sqrt (channelVariance image s)

/-- Modelled from the spec: `PerceptibleReciprocal`, the
reciprocal-with-epsilon policy for degenerate denominators. -/
noncomputable def PerceptibleReciprocal (x : ℝ) : ℝ :=
  let sign : ℝ := if x < 0 then -1 else 1
  if MagickEpsilon ≤ sign * x then 1 / x else sign / (MagickEpsilon : ℝ)

/-- Per-pixel body of `GetNormalizedCrossCorrelationDistortion`: the
alpha-weighted cross-products of mean-centered values, pre-scaled by the
reciprocal area (the opacity term is not alpha-weighted and is gated on
`image->matte` only; the black term needs both images CMYK). -/
def nccPixelVec (image reconstruct : Image) (channel : ChannelType) (area : ℚ)
    (p q : Pixel) : DVec :=
  let Sa := QuantumScale *
    (if image.matte then GetPixelAlpha p else QuantumRange - OpaqueOpacity)
  let Da := QuantumScale *
    (if reconstruct.matte then GetPixelAlpha q else QuantumRange - OpaqueOpacity)
  let vr : ℚ :=
    if channel.red then
      area * QuantumScale * (Sa * p.red - channelMean image .red) *
        (Da * q.red - channelMean reconstruct .red)
    else 0
  let vg : ℚ :=
    if channel.green then
      area * QuantumScale * (Sa * p.green - channelMean image .green) *
        (Da * q.green - channelMean reconstruct .green)
    else 0
  let vb : ℚ :=
    if channel.blue then
      area * QuantumScale * (Sa * p.blue - channelMean image .blue) *
        (Da * q.blue - channelMean reconstruct .blue)
    else 0
  let vo : ℚ :=
    if channel.opacity && image.matte then
      area * QuantumScale * (p.opacity - channelMean image .opacity) *
        (q.opacity - channelMean reconstruct .opacity)
    else 0
  let vk : ℚ :=
    if channel.index && image.cmyk && reconstruct.cmyk then
      area * QuantumScale * (Sa * p.index - channelMean image .black) *
        (Da * q.index - channelMean reconstruct .black)
    else 0
  fun s =>
    match s with
    | .red => vr
    | .green => vg
    | .blue => vb
    | .opacity => vo
    | .black => vk
    | .composite => 0

/-- The raw cross-product accumulation of the cross-correlation metric,
folded over the rows. -/
def nccRawSum (image reconstruct : Image) (channel : ChannelType) : Bool × DVec :=
  let rows := max image.rows reconstruct.rows
  let columns := max image.columns reconstruct.columns
  let area : ℚ := 1 / ((columns : ℚ) * (rows : ℚ))
  accumRows image reconstruct rows addVec
    (fun y => rowSum columns
      (fun x => nccPixelVec image reconstruct channel area (image.pixel x y) (reconstruct.pixel x y)))

/-- One channel slot of the cross-correlation metric: the raw sum divided by
the product of the standard deviations (through `PerceptibleReciprocal`) and
scaled by `QuantumRange`. -/
noncomputable def nccChannel (image reconstruct : Image) (channel : ChannelType)
    (s : Slot) : ℝ :=
  (QuantumRange : ℝ) *
    PerceptibleReciprocal (standardDeviation image s * standardDeviation reconstruct s) *
    ((nccRawSum image reconstruct channel).2 s : ℝ)

/-- `GetNormalizedCrossCorrelationDistortion`: raw cross-product sums folded
over the rows, then each channel slot divided by the product of standard
deviations (through `PerceptibleReciprocal`) and scaled by `QuantumRange`;
the composite slot is the quadrature mean of the selected channel slots. -/
noncomputable def GetNormalizedCrossCorrelationDistortion
    (image reconstruct : Image) (channel : ChannelType) : Bool × (Slot → ℝ) :=
  let comp2 : ℝ :=
    (if channel.red then nccChannel image reconstruct channel .red ^ 2 else 0) +
      (if channel.green then nccChannel image reconstruct channel .green ^ 2 else 0) +
      (if channel.blue then nccChannel image reconstruct channel .blue ^ 2 else 0) +
      (if channel.opacity && image.matte then nccChannel image reconstruct channel .opacity ^ 2 else 0) +
      (if channel.index && image.cmyk then nccChannel image reconstruct channel .black ^ 2 else 0)
  ((nccRawSum image reconstruct channel).1, fun s =>
    if s = .composite then Real.sqrt (comp2 / (GetNumberChannels image channel : ℝ))
    else nccChannel image reconstruct channel s)

/-- `MagickLog10`: base-10 logarithm of the absolute value, clamped below at
`Log10Epsilon = 1.0e-11`. -/
noncomputable def MagickLog10 (x : ℝ) : ℝ :=
  if |x| < 1 / 10 ^ 11 then Real.logb 10 (1 / 10 ^ 11) else Real.logb 10 |x|

/-- The peak-signal-to-noise transform applied to one mean-squared-error
slot: `INFINITY` below `MagickEpsilon`, otherwise
`10 log10(1) - 10 log10(value)`. -/
noncomputable def psnrTransform (v : ℚ) : EReal :=
  if |v| < MagickEpsilon then (⊤ : EReal)
  else ((10 * MagickLog10 1 - 10 * MagickLog10 (v : ℝ) : ℝ) : EReal)

/-- `GetPeakSignalToNoiseRatio`: runs the mean-squared-error metric and
log-transforms the selected slots (and always the composite slot); an
unselected slot keeps its (zero) mean-squared value. -/
noncomputable def GetPeakSignalToNoiseRatio (image reconstruct : Image)
    (channel : ChannelType) : Bool × (Slot → EReal) :=
  let acc := GetMeanSquaredDistortion image reconstruct channel
  (acc.1, fun s =>
    match s with
    | .red => if channel.red then psnrTransform (acc.2 .red) else ((acc.2 .red : ℝ) : EReal)
    | .green => if channel.green then psnrTransform (acc.2 .green) else ((acc.2 .green : ℝ) : EReal)
    | .blue => if channel.blue then psnrTransform (acc.2 .blue) else ((acc.2 .blue : ℝ) : EReal)
    | .opacity =>
      if channel.opacity && image.matte then psnrTransform (acc.2 .opacity)
      else ((acc.2 .opacity : ℝ) : EReal)
    | .black =>
      if channel.index && image.cmyk then psnrTransform (acc.2 .black)
      else ((acc.2 .black : ℝ) : EReal)
    | .composite => psnrTransform (acc.2 .composite))

/-- `GetPerceptualHashDistortion`: sums of squared differences of the
externally supplied moment vectors, over both descriptor variants; each
selected channel accumulates into its own slot and into the composite slot
(the opacity terms need `matte` on both images, the black terms CMYK on
both). -/
def GetPerceptualHashDistortion (image reconstruct : Image)
    (channel : ChannelType) : Bool × DVec :=
  let chanIdx : Slot → ℕ := fun s =>
    match s with
    | .red => 0
    | .green => 1
    | .blue => 2
    | .opacity => 3
    | .black => 4
    | .composite => 5
  let term : Slot → ℚ := fun s =>
    (∑ i ∈ Finset.range MaximumNumberOfImageMoments,
        (reconstruct.phashP (chanIdx s) i - image.phashP (chanIdx s) i) ^ 2) +
      ∑ i ∈ Finset.range MaximumNumberOfImageMoments,
        (reconstruct.phashQ (chanIdx s) i - image.phashQ (chanIdx s) i) ^ 2
  let sel : Slot → Bool := fun s =>
    match s with
    | .red => channel.red
    | .green => channel.green
    | .blue => channel.blue
    | .opacity => channel.opacity && image.matte && reconstruct.matte
    | .black => channel.index && image.cmyk && reconstruct.cmyk
    | .composite => false
  let v : DVec := fun s => if sel s then term s else 0
  (true, fun s =>
    if s = .composite then v .red + v .green + v .blue + v .opacity + v .black
    else v s)

/-- `GetRootMeanSquaredDistortion`: runs the mean-squared-error metric and
square-roots the selected slots (and always the composite slot). -/
noncomputable def GetRootMeanSquaredDistortion (image reconstruct : Image)
    (channel : ChannelType) : Bool × (Slot → ℝ) :=
  let acc := GetMeanSquaredDistortion image reconstruct channel
  (acc.1, fun s =>
    match s with
    | .red => if channel.red then Real.sqrt (acc.2 .red) else ((acc.2 .red : ℚ) : ℝ)
    | .green => if channel.green then Real.sqrt (acc.2 .green) else ((acc.2 .green : ℚ) : ℝ)
    | .blue => if channel.blue then Real.sqrt (acc.2 .blue) else ((acc.2 .blue : ℚ) : ℝ)
    | .opacity =>
      if channel.opacity && image.matte then Real.sqrt (acc.2 .opacity)
      else ((acc.2 .opacity : ℚ) : ℝ)
    | .black =>
      if channel.index && image.cmyk then Real.sqrt (acc.2 .black)
      else ((acc.2 .black : ℚ) : ℝ)
    | .composite => Real.sqrt (acc.2 .composite))

/-- The `switch (metric)` of `GetImageChannelDistortion`: dispatches to the
per-metric helper and injects every result into `EReal` (only the
peak-signal-to-noise-ratio metric can actually produce `INFINITY`);
`undefined` falls into the normalized-cross-correlation branch. -/
noncomputable def metricVector (image reconstruct : Image) (channel : ChannelType)
    (metric : MetricType) : Bool × (Slot → EReal) :=
  match metric with
  | .absoluteError =>
    let acc := GetAbsoluteDistortion image reconstruct channel
    (acc.1, fun s => ((acc.2 s : ℝ) : EReal))
  | .fuzzError =>
    let acc := GetFuzzDistortion image reconstruct channel
    (acc.1, fun s => ((acc.2 s : ℝ) : EReal))
  | .meanAbsoluteError =>
    let acc := GetMeanAbsoluteDistortion image reconstruct channel
    (acc.1, fun s => ((acc.2 s : ℝ) : EReal))
  | .meanErrorPerPixel =>
    let acc := GetMeanErrorPerPixel image reconstruct channel
    (acc.1, fun s => ((acc.2 s : ℝ) : EReal))
  | .meanSquaredError =>
    let acc := GetMeanSquaredDistortion image reconstruct channel
    (acc.1, fun s => ((acc.2 s : ℝ) : EReal))
  | .normalizedCrossCorrelation =>
    let acc := GetNormalizedCrossCorrelationDistortion image reconstruct channel
    (acc.1, fun s => ((acc.2 s : ℝ) : EReal))
  | .undefined =>
    let acc := GetNormalizedCrossCorrelationDistortion image reconstruct channel
    (acc.1, fun s => ((acc.2 s : ℝ) : EReal))
  | .peakAbsoluteError =>
    let acc := GetPeakAbsoluteDistortion image reconstruct channel
    (acc.1, fun s => ((acc.2 s : ℝ) : EReal))
  | .peakSignalToNoiseRatio => GetPeakSignalToNoiseRatio image reconstruct channel
  | .perceptualHash =>
    let acc := GetPerceptualHashDistortion image reconstruct channel
    (acc.1, fun s => ((acc.2 s : ℝ) : EReal))
  | .rootMeanSquaredError =>
    let acc := GetRootMeanSquaredDistortion image reconstruct channel
    (acc.1, fun s => ((acc.2 s : ℝ) : EReal))

/-- `GetImageChannelDistortion`: the out-parameter `*distortion` starts at
`0.0`; a morphology mismatch (for any metric but the perceptual hash) throws
and returns failure with the scalar still zero; otherwise the scalar receives
the composite slot of the metric vector, whether or not the metric helper
succeeded. -/
noncomputable def GetImageChannelDistortion (image reconstruct : Image)
    (channel : ChannelType) (metric : MetricType) : Bool × EReal :=
  if metric ≠ .perceptualHash ∧ ValidateImageMorphology image reconstruct = false then
    (false, 0)
  else
    let acc := metricVector image reconstruct channel metric
    (acc.1, acc.2 .composite)

/-- `GetImageDistortion`: the channel version applied to
`CompositeChannels`. -/
noncomputable def GetImageDistortion (image reconstruct : Image)
    (metric : MetricType) : Bool × EReal :=
  GetImageChannelDistortion image reconstruct CompositeChannels metric

/-- `GetImageChannelDistortions`: returns the whole vector, or no vector at
all when the morphology check or the metric helper fails. -/
noncomputable def GetImageChannelDistortions (image reconstruct : Image)
    (metric : MetricType) : Option (Slot → EReal) :=
  if metric ≠ .perceptualHash ∧ ValidateImageMorphology image reconstruct = false then
    none
  else
    let acc := metricVector image reconstruct CompositeChannels metric
    if acc.1 then some acc.2 else none

/-- Modelled from the spec: the external `IsMagickColorSimilar` predicate of
the renderer's composite-mask path — colors within the combined fuzz
tolerance are similar. -/
def IsMagickColorSimilar (image reconstruct : Image) (p q : Pixel) : Bool :=
  decide ((p.red - q.red) ^ 2 + (p.green - q.green) ^ 2 + (p.blue - q.blue) ^ 2 ≤
    GetFuzzyColorDistance image reconstruct)

/-- The per-pixel decision of the difference renderer: the perceptual
similarity predicate for the full composite mask, otherwise the squared
alpha-weighted per-channel delta versus the (unscaled) fuzz threshold, OR'd
over the requested channels; both alpha factors are driven by
`image->matte` in the source. -/
def comparePixelDifference (image reconstruct : Image) (channel : ChannelType)
    (fuzz : ℚ) (p q : Pixel) : Bool :=
  if channel = CompositeChannels then !(IsMagickColorSimilar image reconstruct p q)
  else
    let Sa := QuantumScale *
      (if image.matte then GetPixelAlpha p else QuantumRange - OpaqueOpacity)
    let Da := QuantumScale *
      (if image.matte then GetPixelAlpha q else QuantumRange - OpaqueOpacity)
    (channel.red && decide (fuzz < (Sa * p.red - Da * q.red) ^ 2)) ||
      (channel.green && decide (fuzz < (Sa * p.green - Da * q.green) ^ 2)) ||
      (channel.blue && decide (fuzz < (Sa * p.blue - Da * q.blue) ^ 2)) ||
      ((channel.opacity && image.matte) && decide (fuzz < (p.opacity - q.opacity) ^ 2)) ||
      ((channel.index && image.cmyk) && decide (fuzz < (Sa * p.index - Da * q.index) ^ 2))

/-- Modelled from the spec: the default highlight color `#f1001ecc` as
returned by the external `QueryMagickColor` at Q16 depth. -/
def defaultHighlight : Pixel :=
  { red := 61937, green := 0, blue := 7710, opacity := 13107, index := 0 }

/-- Modelled from the spec: the default lowlight color `#ffffffcc`. -/
def defaultLowlight : Pixel :=
  { red := 65535, green := 65535, blue := 65535, opacity := 13107, index := 0 }

/-- `CompareImageChannels`: `*distortion` starts at zero; a morphology
mismatch (non-perceptual-hash metrics) aborts with no image; a failing
distortion computation aborts with no image but with the scalar already
overwritten by the (possibly partial) composite value; otherwise the
difference image pairs the source clone with the highlight canvas painted by
the per-pixel decision.  Allocation-style externals (cloning, the authentic
write view, compositing) are modelled as always succeeding, so the painting
loop fails exactly when some row of either input cannot be read. -/
noncomputable def CompareImageChannels (image reconstruct : Image)
    (channel : ChannelType) (metric : MetricType) : Option Image × EReal :=
  if metric ≠ .perceptualHash ∧ ValidateImageMorphology image reconstruct = false then
    (none, 0)
  else
    let acc := GetImageChannelDistortion image reconstruct channel metric
    if acc.1 = false then (none, acc.2)
    else
      let rows := max image.rows reconstruct.rows
      let columns := max image.columns reconstruct.columns
      let fuzz := GetFuzzyColorDistance image reconstruct
      let highlight := image.highlightArtifact.getD defaultHighlight
      let lowlight := image.lowlightArtifact.getD defaultLowlight
      let paintOk : Bool :=
        decide (∀ y < rows, image.rowOk y = true ∧ reconstruct.rowOk y = true)
      if paintOk then
        (some
          { image with
            rows := rows, columns := columns, matte := true,
            pixel := fun x y =>
              if comparePixelDifference image reconstruct channel fuzz
                  (image.pixel x y) (reconstruct.pixel x y) then highlight
              else lowlight },
          acc.2)
      else (none, acc.2)

/-- `CompareImages`: the channel version applied to `CompositeChannels`. -/
noncomputable def CompareImages (image reconstruct : Image) (metric : MetricType) :
    Option Image × EReal :=
  CompareImageChannels image reconstruct CompositeChannels metric

/-- Modelled from the spec: the external `CropImage` applied to the
candidate geometry (reference dimensions at offset `(x, y)`) when it
succeeds; the cropped region reads the virtual pixels of the source and
inherits its traits, and its own rows are always readable. -/
def cropImage (image reference : Image) (x y : ℕ) : Image :=
  { image with
    rows := reference.rows, columns := reference.columns,
    pixel := fun a b => image.pixel (a + x) (b + y),
    rowOk := fun _ => true }

/-- `GetSimilarityMetric`: crops the candidate sub-region and measures its
distortion against the reference; a failing crop yields `0.0`, and the
status of the distortion call is discarded (`(void) status`), so the
returned scalar is whatever `GetImageDistortion` left in it. -/
noncomputable def GetSimilarityMetric (image reference : Image)
    (metric : MetricType) (x y : ℕ) : EReal :=
  if image.cropFail x y then 0
  else (GetImageDistortion (cropImage image reference x y) reference metric).2

/-- The score the similarity scan compares: correlation-style metrics (and
the undefined default) are flipped to `1 - value` so that lower is better;
every other metric uses the raw distortion. -/
noncomputable def scoreUsed (image reference : Image) (metric : MetricType)
    (x y : ℕ) : EReal :=
  let similarity := GetSimilarityMetric image reference metric x y
  if metric = .normalizedCrossCorrelation ∨ metric = .undefined then 1 - similarity
  else similarity

/-- `ClampToQuantum` on the extended reals. -/
noncomputable def clampToQuantum (x : EReal) : EReal :=
  max 0 (min x ((QuantumRange : ℝ) : EReal))

/-- The similarity-threshold value the scan compares against: the parsed
`compare:similarity-threshold` artifact, or `-1.0` when absent. -/
def thrOf (image : Image) : ℚ :=
  (image.similarityThreshold).getD (-1)

/-- The mutable state of the similarity scan: the shared best score and its
offset, plus the confidence map (`none` at offsets that were never
scored). -/
structure ScanState where
  best : EReal
  offx : ℕ
  offy : ℕ
  conf : ℕ → ℕ → Option EReal

/-- The initial scan state: best score `MagickMaximumValue`, offset `(0,0)`
from `SetGeometry`, and a wholly unwritten confidence map. -/
noncomputable def scanStart : ScanState :=
  { best := ((MagickMaximumValue : ℝ) : EReal), offx := 0, offy := 0,
    conf := fun _ _ => none }

/-- The body of one scored candidate: retain the candidate when its score
strictly improves the shared best, rescale perceptual-hash scores for
display, and write the candidate's confidence pixel. -/
noncomputable def scanUpdate (metric : MetricType) (x y : ℕ) (similarity : EReal)
    (s : ScanState) : ScanState :=
  let s1 :=
    if similarity < s.best then { s with best := similarity, offx := x, offy := y }
    else s
  let written :=
    if metric = .perceptualHash then min (((1 / 100 : ℝ) : EReal) * similarity) 1
    else similarity
  { s1 with
    conf := fun a b =>
      if a = x ∧ b = y then
        some (clampToQuantum (((QuantumRange : ℝ) : EReal) -
          ((QuantumRange : ℝ) : EReal) * written))
      else s1.conf a b }

/-- One candidate offset of the similarity scan: skip when the shared best
score has already crossed the threshold; otherwise score the candidate and
fold it into the state. -/
noncomputable def scanStep (image reference : Image) (metric : MetricType)
    (thr : ℚ) (y x : ℕ) (s : ScanState) : ScanState :=
  if s.best ≤ ((thr : ℝ) : EReal) then s
  else scanUpdate metric x y (scoreUsed image reference metric x y) s

/-- The number of candidate x-offsets, `image->columns-reference->columns+1`
(no candidates when the reference is wider than the image). -/
def candWidth (image reference : Image) : ℕ :=
  ((image.columns : ℤ) - (reference.columns : ℤ) + 1).toNat

/-- The number of candidate y-offsets. -/
def candHeight (image reference : Image) : ℕ :=
  ((image.rows : ℤ) - (reference.rows : ℤ) + 1).toNat

/-- One row of the similarity scan: the row-level threshold check
(`continue`), then the serial x-loop. -/
noncomputable def scanRow (image reference : Image) (metric : MetricType)
    (thr : ℚ) (s : ScanState) (y : ℕ) : ScanState :=
  if s.best ≤ ((thr : ℝ) : EReal) then s
  else
    (List.range (candWidth image reference)).foldl
      (fun s x => scanStep image reference metric thr y x s) s

/-- The whole candidate scan of `SimilarityMetricImage`, row by row. -/
noncomputable def similarityScan (image reference : Image) (metric : MetricType) :
    ScanState :=
  (List.range (candHeight image reference)).foldl
    (scanRow image reference metric (thrOf image)) scanStart

/-- The scan as a fold over an explicit candidate list, used to reason about
scan prefixes. -/
noncomputable def scanList (image reference : Image) (metric : MetricType)
    (thr : ℚ) (l : List (ℕ × ℕ)) (s : ScanState) : ScanState :=
  l.foldl (fun s p => scanStep image reference metric thr p.2 p.1 s) s

/-- The candidate offsets in scan order (row-major, `(x, y)` pairs). -/
def candList (image reference : Image) : List (ℕ × ℕ) :=
  (List.range (candHeight image reference)).flatMap
    (fun y => (List.range (candWidth image reference)).map (fun x => (x, y)))

/-- The confidence-map image returned by a successful scan: the clone of the
source resized to the candidate grid, alpha deactivated, its painted gray
levels kept alongside the clone's (default) content for unwritten
offsets. -/
structure ConfidenceImage where
  base : Image
  painted : ℕ → ℕ → Option EReal

/-- The result of `SimilarityMetricImage`: the optional confidence-map
image, the best-match offset rectangle, and the best score written through
`*similarity_metric`. -/
structure SimilarityResult where
  image : Option ConfidenceImage
  offsetX : ℕ
  offsetY : ℕ
  width : ℕ
  height : ℕ
  metricValue : EReal

/-- `SimilarityMetricImage`: `SetGeometry` primes the offset rectangle and
the score starts at `MagickMaximumValue`; a morphology mismatch aborts with
no image; otherwise the scan runs and its best score, best offset and
confidence map are returned (authentic access to the freshly cloned
similarity image is modelled as always succeeding). -/
noncomputable def SimilarityMetricImage (image reference : Image)
    (metric : MetricType) : SimilarityResult :=
  if ValidateImageMorphology image reference = false then
    { image := none, offsetX := 0, offsetY := 0,
      width := reference.columns, height := reference.rows,
      metricValue := ((MagickMaximumValue : ℝ) : EReal) }
  else
    let s := similarityScan image reference metric
    { image := some
        { base :=
            { image with
              rows := candHeight image reference,
              columns := candWidth image reference,
              matte := false },
          painted := s.conf },
      offsetX := s.offx, offsetY := s.offy,
      width := reference.columns, height := reference.rows,
      metricValue := s.best }

/-- `SimilarityImage`: the metric version with the default
root-mean-squared-error metric. -/
noncomputable def SimilarityImage (image reference : Image) : SimilarityResult :=
  SimilarityMetricImage image reference .rootMeanSquaredError

/-- The alpha-weighted per-channel delta named by the absolute-error claim,
with the weighting the source applies (both factors driven by
`image->matte`; the opacity delta is unweighted). -/
def specChannelDelta (image : Image) (p q : Pixel) : Slot → ℚ :=
  let Sa := QuantumScale *
    (if image.matte then GetPixelAlpha p else QuantumRange - OpaqueOpacity)
  let Da := QuantumScale *
    (if image.matte then GetPixelAlpha q else QuantumRange - OpaqueOpacity)
  fun s =>
    match s with
    | .red => Sa * p.red - Da * q.red
    | .green => Sa * p.green - Da * q.green
    | .blue => Sa * p.blue - Da * q.blue
    | .opacity => p.opacity - q.opacity
    | .black => Sa * p.index - Da * q.index
    | .composite => 0

/-- Whether a channel slot is selected by the mask and active on the
image. -/
def specSelected (image : Image) (channel : ChannelType) : Slot → Bool
  | .red => channel.red
  | .green => channel.green
  | .blue => channel.blue
  | .opacity => channel.opacity && image.matte
  | .black => channel.index && image.cmyk
  | .composite => false

/-- The per-channel count the absolute-error claim describes: pixels whose
squared alpha-weighted delta in that channel alone exceeds the fuzz
threshold. -/
def claimAbsoluteSlotCount (image reconstruct : Image) (channel : ChannelType)
    (s : Slot) : ℚ :=
  ∑ y ∈ Finset.range (max image.rows reconstruct.rows),
    ∑ x ∈ Finset.range (max image.columns reconstruct.columns),
      if specSelected image channel s = true ∧
          absoluteFuzz image reconstruct channel <
            specChannelDelta image (image.pixel x y) (reconstruct.pixel x y) s ^ 2
      then 1 else 0

/-- The composite count the absolute-error claim describes: pixels where
some selected channel's own squared delta exceeds the fuzz threshold. -/
def claimAbsoluteAnyCount (image reconstruct : Image) (channel : ChannelType) : ℚ :=
  ∑ y ∈ Finset.range (max image.rows reconstruct.rows),
    ∑ x ∈ Finset.range (max image.columns reconstruct.columns),
      if (specSelected image channel .red = true ∧
            absoluteFuzz image reconstruct channel <
              specChannelDelta image (image.pixel x y) (reconstruct.pixel x y) .red ^ 2) ∨
          (specSelected image channel .green = true ∧
            absoluteFuzz image reconstruct channel <
              specChannelDelta image (image.pixel x y) (reconstruct.pixel x y) .green ^ 2) ∨
          (specSelected image channel .blue = true ∧
            absoluteFuzz image reconstruct channel <
              specChannelDelta image (image.pixel x y) (reconstruct.pixel x y) .blue ^ 2) ∨
          (specSelected image channel .opacity = true ∧
            absoluteFuzz image reconstruct channel <
              specChannelDelta image (image.pixel x y) (reconstruct.pixel x y) .opacity ^ 2) ∨
          (specSelected image channel .black = true ∧
            absoluteFuzz image reconstruct channel <
              specChannelDelta image (image.pixel x y) (reconstruct.pixel x y) .black ^ 2)
      then 1 else 0

/-- The running sum of squared alpha-weighted deltas of the selected
channels, in the order red, green, blue, opacity, black, up through the
given slot; the composite entry is the total over all selected channels. -/
def cumulativeDistance (image : Image) (channel : ChannelType) (p q : Pixel) :
    Slot → ℚ :=
  let t : Slot → ℚ := fun s =>
    if specSelected image channel s then specChannelDelta image p q s ^ 2 else 0
  fun s =>
    match s with
    | .red => t .red
    | .green => t .red + t .green
    | .blue => t .red + t .green + t .blue
    | .opacity => t .red + t .green + t .blue + t .opacity
    | .black => t .red + t .green + t .blue + t .opacity + t .black
    | .composite => t .red + t .green + t .blue + t .opacity + t .black

/-- Whether a selected channel's running sum up through that channel exceeds
the threshold. -/
def cumulFire (image : Image) (channel : ChannelType) (fuzz : ℚ) (p q : Pixel)
    (s : Slot) : Bool :=
  specSelected image channel s && decide (fuzz < cumulativeDistance image channel p q s)

/-- Whether some selected channel's running sum exceeds the threshold
(equivalently, since the running sums only grow, whether the total over all
selected channels exceeds it). -/
def cumulAnyFire (image : Image) (channel : ChannelType) (fuzz : ℚ) (p q : Pixel) : Bool :=
  cumulFire image channel fuzz p q .red || cumulFire image channel fuzz p q .green ||
    cumulFire image channel fuzz p q .blue || cumulFire image channel fuzz p q .opacity ||
    cumulFire image channel fuzz p q .black

/-- The corrected counting rule of the absolute-error metric: a channel slot
counts the pixels whose running sum up through that channel exceeds the fuzz
threshold, and the composite slot counts the pixels where any selected
channel's running sum exceeds it. -/
def amendedAbsoluteCount (image reconstruct : Image) (channel : ChannelType)
    (s : Slot) : ℚ :=
  ∑ y ∈ Finset.range (max image.rows reconstruct.rows),
    ∑ x ∈ Finset.range (max image.columns reconstruct.columns),
      if (if s = .composite then
            cumulAnyFire image channel (absoluteFuzz image reconstruct channel)
              (image.pixel x y) (reconstruct.pixel x y)
          else
            cumulFire image channel (absoluteFuzz image reconstruct channel)
              (image.pixel x y) (reconstruct.pixel x y) s) = true
      then 1 else 0

/-- The red/green/blue channel mask. -/
def rgbMask : ChannelType :=
  { red := true, green := true, blue := true, opacity := false, index := false }

/-- An all-zero pixel (black, fully opaque). -/
def blackPixel : Pixel := { red := 0, green := 0, blue := 0, opacity := 0, index := 0 }

/-- An all-white, fully opaque pixel. -/
def whitePixel : Pixel :=
  { red := 65535, green := 65535, blue := 65535, opacity := 0, index := 0 }

/-- A plain RGB test image: the given dimensions and pixels, no alpha, not
CMYK, zero fuzz, fully readable rows, no crop failures, zero moments, and no
configuration artifacts. -/
def mkImage (rows columns : ℕ) (matte : Bool) (f : ℕ → ℕ → Pixel) : Image :=
  { rows := rows, columns := columns, matte := matte, cmyk := false, fuzz := 0,
    pixel := f, rowOk := fun _ => true, cropFail := fun _ _ => false,
    phashP := fun _ _ => 0, phashQ := fun _ _ => 0,
    similarityThreshold := none, highlightArtifact := none, lowlightArtifact := none }

/-- A one-pixel image whose red channel is saturated (for the absolute-error
counterexample). -/
def redOnlyImage : Image :=
  mkImage 1 1 false (fun _ _ => { red := 65535, green := 0, blue := 0, opacity := 0, index := 0 })

/-- A one-pixel all-black image. -/
def blackImage1 : Image := mkImage 1 1 false (fun _ _ => blackPixel)

/-- The two-by-two all-black image of the worked scenario. -/
def blackImage2 : Image := mkImage 2 2 false (fun _ _ => blackPixel)

/-- The two-by-two all-white image of the worked scenario. -/
def whiteImage2 : Image := mkImage 2 2 false (fun _ _ => whitePixel)

/-- A two-row all-white image whose second pixel row cannot be read (a
`PixelAccessFailure` on row 1). -/
def failingWhiteImage : Image :=
  { mkImage 2 1 false (fun _ _ => whitePixel) with rowOk := fun y => decide (y = 0) }

/-- A two-row all-black image (the reconstruction for the failure-path
counterexample). -/
def blackImageTwoRows : Image := mkImage 2 1 false (fun _ _ => blackPixel)

/-- A two-pixel black/white gradient image (nonzero variance in every RGB
channel, for the self-correlation counterexample). -/
def gradientImage : Image :=
  mkImage 1 2 false (fun x _ => if x = 0 then blackPixel else whitePixel)

/-- An eight-pixel image differing from all-black by one quantum in one red
sample (its mean squared error against black lands strictly between
`MagickEpsilon` and `Log10Epsilon`). -/
def almostBlackImage : Image :=
  mkImage 1 8 (false)
    (fun x _ => if x = 0 then { red := 1, green := 0, blue := 0, opacity := 0, index := 0 } else blackPixel)

/-- An eight-pixel all-black image. -/
def blackImage8 : Image := mkImage 1 8 false (fun _ _ => blackPixel)

/-- A one-pixel image with an active alpha channel. -/
def matteImage1 : Image := mkImage 1 1 true (fun _ _ => blackPixel)

/-- A one-pixel image whose crop always fails (an `AllocationFailure` in the
external `CropImage`). -/
def cropFailImage : Image :=
  { mkImage 1 1 false (fun _ _ => blackPixel) with cropFail := fun _ _ => true }

/-- A three-pixel matte image whose first two pixels have a tiny
gray-level spread but an extreme alpha spread, driving the alpha-weighted
cross-correlation far above one. -/
def skewedMatteImage : Image :=
  mkImage 1 3 true
    (fun x _ =>
      if x = 0 then { red := 32766, green := 32766, blue := 32766, opacity := 65535, index := 0 }
      else { red := 32768, green := 32768, blue := 32768, opacity := 0, index := 0 })

/-- A two-pixel opaque matte reference with full gray-level spread. -/
def spreadMatteReference : Image :=
  mkImage 1 2 true
    (fun x _ => if x = 0 then blackPixel else whitePixel)

/-- A two-pixel all-black image carrying a zero similarity threshold
artifact. -/
def thresholdZeroImage : Image :=
  { mkImage 1 2 false (fun _ _ => blackPixel) with similarityThreshold := some 0 }

/-- The candidate sub-region at offset `(0, 0)` of the skewed matte image,
as the similarity scan crops it. -/
def skewCrop : Image := cropImage skewedMatteImage spreadMatteReference 0 0

theorem accumRows_allOk (image reconstruct : Image) (rows : ℕ) (row : ℕ → DVec)
    (h : ∀ y, y < rows → image.rowOk y = true ∧ reconstruct.rowOk y = true) :
    accumRows image reconstruct rows addVec row =
      (true, fun s => ∑ y ∈ Finset.range rows, row y s) := by
  induction rows with
  | zero =>
    refine Prod.ext rfl ?_
    funext s
    simp [accumRows, zeroVec]
  | succ n ih =>
    have hn : ∀ y, y < n → image.rowOk y = true ∧ reconstruct.rowOk y = true :=
      fun y hy => h y (Nat.lt_succ_of_lt hy)
    have hok := h n (Nat.lt_succ_self n)
    unfold accumRows at ih ⊢
    rw [List.range_succ, List.foldl_append, ih hn]
    simp only [List.foldl_cons, List.foldl_nil, hok.1, hok.2, Bool.and_self]
    refine Prod.ext rfl ?_
    funext s
    simp [addVec, Finset.sum_range_succ]

theorem foldl_preserves {α β : Type _} (P : α → Prop) (f : α → β → α)
    (hstep : ∀ a b, P a → P (f a b)) :
    ∀ (l : List β) (a : α), P a → P (l.foldl f a) := by
  intro l
  induction l with
  | nil => intro a ha; exact ha
  | cons b l ih => intro a ha; exact ih (f a b) (hstep a b ha)

theorem accumRows_slot_zero (image reconstruct : Image) (rows : ℕ)
    (merge : DVec → DVec → DVec) (row : ℕ → DVec) (s : Slot)
    (hrow : ∀ acc y, acc s = 0 → merge acc (row y) s = 0) :
    (accumRows image reconstruct rows merge row).2 s = 0 := by
  refine foldl_preserves (fun st => st.2 s = 0) _ ?_ (List.range rows)
    ((true, zeroVec) : Bool × DVec) rfl
  intro st y hst
  dsimp only
  split_ifs with h1 h2
  · exact hst
  · exact hrow st.2 y hst
  · exact hst

theorem accumRows_slot_nonneg (image reconstruct : Image) (rows : ℕ)
    (row : ℕ → DVec) (s : Slot) (hrow : ∀ y, 0 ≤ row y s) :
    0 ≤ (accumRows image reconstruct rows addVec row).2 s := by
  refine foldl_preserves (fun st => 0 ≤ st.2 s) _ ?_ (List.range rows)
    ((true, zeroVec) : Bool × DVec) le_rfl
  intro st y hst
  dsimp only
  split_ifs with h1 h2
  · exact hst
  · exact add_nonneg hst (hrow y)
  · exact hst

theorem rowSum_slot_zero (columns : ℕ) (f : ℕ → DVec) (s : Slot)
    (h : ∀ x, f x s = 0) : rowSum columns f s = 0 := by
  unfold rowSum
  exact Finset.sum_eq_zero (fun x _ => h x)

theorem rowSum_slot_nonneg (columns : ℕ) (f : ℕ → DVec) (s : Slot)
    (h : ∀ x, 0 ≤ f x s) : 0 ≤ rowSum columns f s := by
  unfold rowSum
  exact Finset.sum_nonneg (fun x _ => h x)

theorem GetMeanSquaredDistortion_slot_zero (image reconstruct : Image)
    (channel : ChannelType) (s : Slot)
    (h : ∀ x y, meanSquaredPixelVec image reconstruct channel
      (image.pixel x y) (reconstruct.pixel x y) s = 0) :
    (GetMeanSquaredDistortion image reconstruct channel).2 s = 0 := by
  have hacc :
      (accumRows image reconstruct (max image.rows reconstruct.rows) addVec
        (fun y => rowSum (max image.columns reconstruct.columns)
          (fun x => meanSquaredPixelVec image reconstruct channel
            (image.pixel x y) (reconstruct.pixel x y)))).2 s = 0 := by
    refine accumRows_slot_zero _ _ _ _ _ _ ?_
    intro acc y hz
    have hr : rowSum (max image.columns reconstruct.columns)
        (fun x => meanSquaredPixelVec image reconstruct channel
          (image.pixel x y) (reconstruct.pixel x y)) s = 0 :=
      rowSum_slot_zero _ _ _ (fun x => h x y)
    simp [addVec, hz, hr]
  unfold GetMeanSquaredDistortion
  dsimp only
  rw [hacc]
  simp

/-- The claim C5 states: the root-mean-squared-error metric is, slot by slot
and for the composite value, the square root of the mean-squared-error
metric on the same inputs, with the same success status. -/
theorem rmse_vector_is_sqrt_of_mse_vector (image reconstruct : Image)
    (channel : ChannelType) :
    (GetRootMeanSquaredDistortion image reconstruct channel).1 =
        (GetMeanSquaredDistortion image reconstruct channel).1 ∧
      ∀ s, (GetRootMeanSquaredDistortion image reconstruct channel).2 s =
        Real.sqrt ((GetMeanSquaredDistortion image reconstruct channel).2 s) := by
  refine ⟨rfl, ?_⟩
  intro s
  cases s with
  | red =>
    by_cases h : channel.red
    · simp [GetRootMeanSquaredDistortion, h]
    · have hb : channel.red = false := by simpa using h
      have hz : (GetMeanSquaredDistortion image reconstruct channel).2 .red = 0 :=
        GetMeanSquaredDistortion_slot_zero _ _ _ _
          (fun p q => by simp [meanSquaredPixelVec, hb])
      simp [GetRootMeanSquaredDistortion, hb, hz]
  | green =>
    by_cases h : channel.green
    · simp [GetRootMeanSquaredDistortion, h]
    · have hb : channel.green = false := by simpa using h
      have hz : (GetMeanSquaredDistortion image reconstruct channel).2 .green = 0 :=
        GetMeanSquaredDistortion_slot_zero _ _ _ _
          (fun p q => by simp [meanSquaredPixelVec, hb])
      simp [GetRootMeanSquaredDistortion, hb, hz]
  | blue =>
    by_cases h : channel.blue
    · simp [GetRootMeanSquaredDistortion, h]
    · have hb : channel.blue = false := by simpa using h
      have hz : (GetMeanSquaredDistortion image reconstruct channel).2 .blue = 0 :=
        GetMeanSquaredDistortion_slot_zero _ _ _ _
          (fun p q => by simp [meanSquaredPixelVec, hb])
      simp [GetRootMeanSquaredDistortion, hb, hz]
  | opacity =>
    by_cases h : (channel.opacity && image.matte) = true
    · simp [GetRootMeanSquaredDistortion, h]
    · have hb : (channel.opacity && image.matte) = false := by simpa using h
      have hz : (GetMeanSquaredDistortion image reconstruct channel).2 .opacity = 0 :=
        GetMeanSquaredDistortion_slot_zero _ _ _ _
          (fun p q => by simp [meanSquaredPixelVec, hb])
      simp [GetRootMeanSquaredDistortion, hb, hz]
  | black =>
    by_cases h : (channel.index && image.cmyk) = true
    · simp [GetRootMeanSquaredDistortion, h]
    · have hb : (channel.index && image.cmyk) = false := by simpa using h
      have hz : (GetMeanSquaredDistortion image reconstruct channel).2 .black = 0 := by
        refine GetMeanSquaredDistortion_slot_zero _ _ _ _ ?_
        intro p q
        rcases Bool.and_eq_false_iff.mp hb with hc | hc <;>
          simp [meanSquaredPixelVec, hc]
      simp [GetRootMeanSquaredDistortion, hb, hz]
  | composite => simp [GetRootMeanSquaredDistortion]

/-- The claim C9 states: comparing the two-by-two all-black image against
the two-by-two all-white image under the RGB mask with default
(approximately zero) fuzz yields a mean-absolute-error composite of exactly
one and an absolute-error composite count of four. -/
theorem black_vs_white_worked_scenario :
    (GetMeanAbsoluteDistortion blackImage2 whiteImage2 rgbMask).2 .composite = 1 ∧
      (GetAbsoluteDistortion blackImage2 whiteImage2 rgbMask).2 .composite = 4 := by
  constructor
  · norm_num [GetMeanAbsoluteDistortion, meanAbsolutePixelVec, accumRows, rowSum, addVec,
      zeroVec, blackImage2, whiteImage2, mkImage, rgbMask, blackPixel, whitePixel,
      GetNumberChannels, GetPixelAlpha, QuantumScale, QuantumRange, OpaqueOpacity,
      List.range_succ, Finset.sum_range_succ]
  · norm_num [GetAbsoluteDistortion, absolutePixelVec, absoluteFuzz, GetFuzzyColorDistance,
      accumRows, rowSum, addVec, zeroVec, blackImage2, whiteImage2, mkImage, rgbMask,
      blackPixel, whitePixel, GetNumberChannels, GetPixelAlpha, QuantumScale, QuantumRange,
      OpaqueOpacity, List.range_succ, Finset.sum_range_succ]

set_option maxHeartbeats 2000000 in
theorem absolutePixelVec_eq (image : Image) (channel : ChannelType) (fuzz : ℚ)
    (p q : Pixel) (s : Slot) :
    absolutePixelVec image channel fuzz p q s =
      if (if s = .composite then cumulAnyFire image channel fuzz p q
          else cumulFire image channel fuzz p q s) = true then 1 else 0 := by
  cases s with
  | red =>
    cases hr : channel.red <;>
      simp [absolutePixelVec, cumulFire, cumulativeDistance, specSelected,
        specChannelDelta, hr]
  | green =>
    cases hr : channel.red <;> cases hg : channel.green <;>
      simp [absolutePixelVec, cumulFire, cumulativeDistance, specSelected,
        specChannelDelta, hr, hg]
  | blue =>
    cases hr : channel.red <;> cases hg : channel.green <;> cases hb : channel.blue <;>
      simp [absolutePixelVec, cumulFire, cumulativeDistance, specSelected,
        specChannelDelta, hr, hg, hb]
  | opacity =>
    cases hr : channel.red <;> cases hg : channel.green <;> cases hb : channel.blue <;>
      cases ho : (channel.opacity && image.matte) <;>
      simp [absolutePixelVec, cumulFire, cumulativeDistance, specSelected,
        specChannelDelta, hr, hg, hb, ho]
  | black =>
    cases hr : channel.red <;> cases hg : channel.green <;> cases hb : channel.blue <;>
      cases ho : (channel.opacity && image.matte) <;>
      cases hk : (channel.index && image.cmyk) <;>
      simp [absolutePixelVec, cumulFire, cumulativeDistance, specSelected,
        specChannelDelta, hr, hg, hb, ho, hk]
  | composite =>
    cases hr : channel.red <;> cases hg : channel.green <;> cases hb : channel.blue <;>
      cases ho : (channel.opacity && image.matte) <;>
      cases hk : (channel.index && image.cmyk) <;>
      simp [absolutePixelVec, cumulAnyFire, cumulFire, cumulativeDistance, specSelected,
        specChannelDelta, hr, hg, hb, ho, hk, or_assoc]

/-- The claim C1 amended: for the absolute-error metric, a channel slot
counts the pixels whose running sum of squared alpha-weighted deltas over
the selected channels (in the order red, green, blue, opacity, black) up
through that channel exceeds the fuzz threshold, and the composite slot
counts the pixels where any selected channel's running sum exceeds it. -/
theorem absolute_distortion_counts_cumulative (image reconstruct : Image)
    (channel : ChannelType)
    (h : ∀ y, y < max image.rows reconstruct.rows →
      image.rowOk y = true ∧ reconstruct.rowOk y = true) (s : Slot) :
    (GetAbsoluteDistortion image reconstruct channel).2 s =
      amendedAbsoluteCount image reconstruct channel s := by
  unfold GetAbsoluteDistortion
  dsimp only
  rw [accumRows_allOk _ _ _ _ h]
  unfold amendedAbsoluteCount
  dsimp only
  refine Finset.sum_congr rfl ?_
  intro y _
  show rowSum (max image.columns reconstruct.columns) _ s = _
  unfold rowSum
  refine Finset.sum_congr rfl ?_
  intro x _
  exact absolutePixelVec_eq image channel _ _ _ s

/-- A closed witness for the amended C1 theorem: on the one-pixel saturated
red image against black under the RGB mask, every row is readable and the
green slot equals the cumulative count (both are one). -/
theorem absolute_distortion_counts_cumulative_witness :
    (∀ y, y < max redOnlyImage.rows blackImage1.rows →
        redOnlyImage.rowOk y = true ∧ blackImage1.rowOk y = true) ∧
      (GetAbsoluteDistortion redOnlyImage blackImage1 rgbMask).2 .green =
        amendedAbsoluteCount redOnlyImage blackImage1 rgbMask .green :=
  ⟨fun _ _ => ⟨rfl, rfl⟩,
    absolute_distortion_counts_cumulative redOnlyImage blackImage1 rgbMask
      (fun _ _ => ⟨rfl, rfl⟩) .green⟩

/-- The claim C1 is violated by the code: on a one-pixel image whose red
channel is saturated and whose green channel agrees with the
reconstruction, the green slot of `GetAbsoluteDistortion` is one (the
running distance inherited from red already exceeds the threshold), while
the claim's per-channel rule (the green delta alone against the threshold)
counts zero pixels. -/
theorem absolute_green_slot_counterexample :
    (GetAbsoluteDistortion redOnlyImage blackImage1 rgbMask).2 .green = 1 ∧
      claimAbsoluteSlotCount redOnlyImage blackImage1 rgbMask .green = 0 ∧
      (GetAbsoluteDistortion redOnlyImage blackImage1 rgbMask).2 .green ≠
        claimAbsoluteSlotCount redOnlyImage blackImage1 rgbMask .green := by
  have h1 : (GetAbsoluteDistortion redOnlyImage blackImage1 rgbMask).2 .green = 1 := by
    norm_num [GetAbsoluteDistortion, absolutePixelVec, absoluteFuzz, GetFuzzyColorDistance,
      GetNumberChannels, accumRows, rowSum, addVec, zeroVec, redOnlyImage, blackImage1,
      mkImage, rgbMask, blackPixel, GetPixelAlpha, QuantumScale, QuantumRange, OpaqueOpacity,
      List.range_succ, Finset.sum_range_succ]
  have h2 : claimAbsoluteSlotCount redOnlyImage blackImage1 rgbMask .green = 0 := by
    norm_num [claimAbsoluteSlotCount, specSelected, specChannelDelta, absoluteFuzz,
      GetFuzzyColorDistance, GetNumberChannels, redOnlyImage, blackImage1, mkImage,
      rgbMask, blackPixel, GetPixelAlpha, QuantumScale, QuantumRange, OpaqueOpacity,
      Finset.sum_range_succ]
  exact ⟨h1, h2, by rw [h1, h2]; norm_num⟩

/-- The claim C4 states (with `DefaultChannels` modelled from the spec):
whenever the active channel counts of the two images differ under the
default mask — for instance when exactly one of them has an active alpha
channel — every metric other than the perceptual hash makes
`CompareImageChannels` and the distortion operations fail with the
`ImageMorphologyDiffers` error: no difference image and no distortion
result, the scalar still at its zero default. -/
theorem morphology_mismatch_aborts (image reconstruct : Image)
    (channel : ChannelType) (metric : MetricType)
    (hmetric : metric ≠ .perceptualHash)
    (hneq : GetNumberChannels image DefaultChannels ≠
      GetNumberChannels reconstruct DefaultChannels) :
    CompareImageChannels image reconstruct channel metric = (none, 0) ∧
      GetImageChannelDistortion image reconstruct channel metric = (false, 0) ∧
      GetImageDistortion image reconstruct metric = (false, 0) := by
  have hv : ValidateImageMorphology image reconstruct = false := by
    simp [ValidateImageMorphology, hneq]
  refine ⟨?_, ?_, ?_⟩
  · unfold CompareImageChannels
    rw [if_pos ⟨hmetric, hv⟩]
  · unfold GetImageChannelDistortion
    rw [if_pos ⟨hmetric, hv⟩]
  · unfold GetImageDistortion GetImageChannelDistortion
    rw [if_pos ⟨hmetric, hv⟩]

/-- A closed witness for the morphology-mismatch theorem: a one-pixel matte
image against a one-pixel non-matte image has channel counts four versus
three, and the mean-squared-error comparison aborts. -/
theorem morphology_mismatch_aborts_witness :
    MetricType.meanSquaredError ≠ MetricType.perceptualHash ∧
      GetNumberChannels matteImage1 DefaultChannels ≠
        GetNumberChannels blackImage1 DefaultChannels ∧
      CompareImageChannels matteImage1 blackImage1 rgbMask .meanSquaredError = (none, 0) ∧
      GetImageChannelDistortion matteImage1 blackImage1 rgbMask .meanSquaredError =
        (false, 0) :=
  ⟨by decide, by decide,
    (morphology_mismatch_aborts matteImage1 blackImage1 rgbMask .meanSquaredError
      (by decide) (by decide)).1,
    (morphology_mismatch_aborts matteImage1 blackImage1 rgbMask .meanSquaredError
      (by decide) (by decide)).2.1⟩

/-- The claim C2 amended: a failed public operation returns no image
(`CompareImageChannels`) and no vector (`GetImageChannelDistortions`), and
the morphology-failure path leaves the scalar at its zero default; but in
every other failure path the caller-visible scalar holds the composite of
the partially accumulated vector rather than the initialized default, so
callers must check the status and cannot rely on the scalar being zero. -/
theorem failure_returns_no_image_or_vector (image reconstruct : Image)
    (channel : ChannelType) (metric : MetricType) :
    ((GetImageChannelDistortion image reconstruct channel metric).1 = false →
        (CompareImageChannels image reconstruct channel metric).1 = none) ∧
      (GetImageChannelDistortions image reconstruct metric = none ↔
        ((metric ≠ .perceptualHash ∧ ValidateImageMorphology image reconstruct = false) ∨
          (metricVector image reconstruct CompositeChannels metric).1 = false)) ∧
      (metric ≠ .perceptualHash → ValidateImageMorphology image reconstruct = false →
        GetImageChannelDistortion image reconstruct channel metric = (false, 0)) ∧
      (CompareImageChannels image reconstruct channel metric).2 =
        (GetImageChannelDistortion image reconstruct channel metric).2 := by
  by_cases hm : metric ≠ .perceptualHash ∧ ValidateImageMorphology image reconstruct = false
  · refine ⟨?_, ?_, ?_, ?_⟩
    · intro _
      unfold CompareImageChannels
      rw [if_pos hm]
    · unfold GetImageChannelDistortions
      rw [if_pos hm]
      simp [hm]
    · intro _ _
      unfold GetImageChannelDistortion
      rw [if_pos hm]
    · unfold CompareImageChannels GetImageChannelDistortion
      rw [if_pos hm, if_pos hm]
  · have hd : GetImageChannelDistortion image reconstruct channel metric =
        ((metricVector image reconstruct channel metric).1,
          (metricVector image reconstruct channel metric).2 .composite) := by
      unfold GetImageChannelDistortion
      rw [if_neg hm]
    refine ⟨?_, ?_, ?_, ?_⟩
    · intro hfail
      rw [hd] at hfail
      unfold CompareImageChannels
      rw [if_neg hm, hd]
      dsimp only at hfail ⊢
      rw [if_pos hfail]
    · unfold GetImageChannelDistortions
      rw [if_neg hm]
      constructor
      · intro h
        by_cases hs : (metricVector image reconstruct CompositeChannels metric).1 = true
        · rw [if_pos hs] at h
          exact absurd h (by simp)
        · exact Or.inr (by simpa using hs)
      · intro h
        rcases h with h | h
        · exact absurd h hm
        · rw [if_neg (by simp [h])]
    · intro h1 h2
      exact absurd ⟨h1, h2⟩ hm
    · unfold CompareImageChannels
      rw [if_neg hm, hd]
      dsimp only
      by_cases hs : (metricVector image reconstruct channel metric).1 = false
      · rw [if_pos hs]
      · rw [if_neg hs]
        by_cases hp : (decide (∀ y < max image.rows reconstruct.rows,
            image.rowOk y = true ∧ reconstruct.rowOk y = true)) = true
        · rw [if_pos hp]
        · rw [if_neg hp]

/-- The claim C2 is violated by the code: comparing a two-row white image
whose second row is unreadable against a two-row black image with the
mean-absolute-error metric reports failure, yet the caller-visible scalar
holds the partially accumulated composite `1/2` instead of the initialized
default `0.0` (the partial first-row sum survives the failure and is
normalized and written through `*distortion`). -/
theorem failure_scalar_counterexample :
    (GetImageChannelDistortion failingWhiteImage blackImageTwoRows rgbMask
        .meanAbsoluteError).1 = false ∧
      (GetImageChannelDistortion failingWhiteImage blackImageTwoRows rgbMask
        .meanAbsoluteError).2 = (((1 : ℝ) / 2 : ℝ) : EReal) ∧
      (((1 : ℝ) / 2 : ℝ) : EReal) ≠ (0 : EReal) ∧
      (CompareImageChannels failingWhiteImage blackImageTwoRows rgbMask
        .meanAbsoluteError).1 = none := by
  have hval : ValidateImageMorphology failingWhiteImage blackImageTwoRows = true := by
    decide
  have hcond : ¬(MetricType.meanAbsoluteError ≠ .perceptualHash ∧
      ValidateImageMorphology failingWhiteImage blackImageTwoRows = false) := by
    simp [hval]
  have hst : (GetMeanAbsoluteDistortion failingWhiteImage blackImageTwoRows rgbMask).1 =
      false := by
    norm_num [GetMeanAbsoluteDistortion, accumRows, List.range_succ, failingWhiteImage,
      blackImageTwoRows, mkImage]
  have hv2 : (GetMeanAbsoluteDistortion failingWhiteImage blackImageTwoRows rgbMask).2
      .composite = 1 / 2 := by
    norm_num [GetMeanAbsoluteDistortion, meanAbsolutePixelVec, accumRows, rowSum, addVec,
      zeroVec, failingWhiteImage, blackImageTwoRows, mkImage, rgbMask, blackPixel,
      whitePixel, GetNumberChannels, GetPixelAlpha, QuantumScale, QuantumRange,
      OpaqueOpacity, List.range_succ, Finset.sum_range_succ]
  have hd : GetImageChannelDistortion failingWhiteImage blackImageTwoRows rgbMask
      .meanAbsoluteError = (false, (((1 : ℝ) / 2 : ℝ) : EReal)) := by
    unfold GetImageChannelDistortion
    rw [if_neg hcond]
    unfold metricVector
    dsimp only
    rw [hst, hv2]
    norm_num
  refine ⟨by rw [hd], by rw [hd], by
    intro h
    rw [EReal.coe_eq_zero] at h
    norm_num at h, ?_⟩
  unfold CompareImageChannels
  rw [if_neg hcond, hd]
  norm_num

/-- A closed witness for the amended C2 theorem: at the failing-row input
the distortion status is false and `CompareImageChannels` indeed returns no
image, and at a morphology-mismatch input the scalar is still zero. -/
theorem failure_returns_no_image_or_vector_witness :
    ((GetImageChannelDistortion failingWhiteImage blackImageTwoRows rgbMask
          .meanAbsoluteError).1 = false →
        (CompareImageChannels failingWhiteImage blackImageTwoRows rgbMask
          .meanAbsoluteError).1 = none) ∧
      (MetricType.meanSquaredError ≠ .perceptualHash →
        ValidateImageMorphology matteImage1 blackImage1 = false →
        GetImageChannelDistortion matteImage1 blackImage1 rgbMask .meanSquaredError =
          (false, 0)) :=
  ⟨(failure_returns_no_image_or_vector failingWhiteImage blackImageTwoRows rgbMask
      .meanAbsoluteError).1,
    (failure_returns_no_image_or_vector matteImage1 blackImage1 rgbMask
      .meanSquaredError).2.2.1⟩

theorem GetFuzzyColorDistance_pos (image reconstruct : Image) :
    0 < GetFuzzyColorDistance image reconstruct := by
  unfold GetFuzzyColorDistance
  dsimp only
  split_ifs with h
  · linarith [h.2]
  · norm_num

theorem absoluteFuzz_nonneg (image reconstruct : Image) (channel : ChannelType) :
    0 ≤ absoluteFuzz image reconstruct channel :=
  mul_nonneg (Nat.cast_nonneg _) (le_of_lt (GetFuzzyColorDistance_pos _ _))

theorem rowMax_slot_zero (columns : ℕ) (f : ℕ → DVec) (s : Slot)
    (h : ∀ x, f x s = 0) : rowMax columns f s = 0 := by
  unfold rowMax
  refine foldl_preserves (fun m => m = 0) _ ?_ _ _ rfl
  intro m x hm
  rw [hm, h x]
  exact max_self 0

theorem absolutePixelVec_self (image : Image) (channel : ChannelType) (fuzz : ℚ)
    (hf : 0 ≤ fuzz) (p : Pixel) (s : Slot) :
    absolutePixelVec image channel fuzz p p s = 0 := by
  have hlt : ¬(fuzz < 0) := not_lt.mpr hf
  simp only [absolutePixelVec, sub_self, hlt]
  cases s <;> simp [hlt]

theorem fuzzPixelVec_self (image reconstruct : Image) (channel : ChannelType)
    (h : reconstruct.matte = image.matte) (p : Pixel) (s : Slot) :
    fuzzPixelVec image reconstruct channel p p s = 0 := by
  cases s <;> simp [fuzzPixelVec, h, sub_self]

theorem meanAbsolutePixelVec_self (image reconstruct : Image) (channel : ChannelType)
    (h : reconstruct.matte = image.matte) (p : Pixel) (s : Slot) :
    meanAbsolutePixelVec image reconstruct channel p p s = 0 := by
  cases s <;> simp [meanAbsolutePixelVec, h, sub_self]

theorem meanSquaredPixelVec_self (image reconstruct : Image) (channel : ChannelType)
    (h : reconstruct.matte = image.matte) (p : Pixel) (s : Slot) :
    meanSquaredPixelVec image reconstruct channel p p s = 0 := by
  cases s <;> simp [meanSquaredPixelVec, h, sub_self]

theorem meppPixelVec_self (image reconstruct : Image) (channel : ChannelType)
    (h : reconstruct.matte = image.matte) (p : Pixel) (s : Slot) :
    meppPixelVec image reconstruct channel p p s = 0 := by
  cases s <;> simp [meppPixelVec, h, sub_self]

theorem peakPixelVec_self (image reconstruct : Image) (channel : ChannelType)
    (h : reconstruct.matte = image.matte) (p : Pixel) (s : Slot) :
    peakPixelVec image reconstruct channel p p s = 0 := by
  cases s <;> simp [peakPixelVec, h, sub_self]

theorem addVec_rowZero (acc : DVec) (v : DVec) (s : Slot) (hz : acc s = 0)
    (hv : v s = 0) : addVec acc v s = 0 := by
  simp [addVec, hz, hv]

theorem GetAbsoluteDistortion_self (image : Image) (channel : ChannelType) (s : Slot) :
    (GetAbsoluteDistortion image image channel).2 s = 0 := by
  unfold GetAbsoluteDistortion
  dsimp only
  refine accumRows_slot_zero _ _ _ _ _ _ ?_
  intro acc y hz
  exact addVec_rowZero _ _ _ hz
    (rowSum_slot_zero _ _ _
      (fun x => absolutePixelVec_self _ _ _ (absoluteFuzz_nonneg _ _ _) _ s))

theorem GetFuzzDistortion_self (image : Image) (channel : ChannelType) :
    (GetFuzzDistortion image image channel).2 .composite = 0 := by
  unfold GetFuzzDistortion
  dsimp only
  have hacc : (accumRows image image (max image.rows image.rows) addVec
      (fun y => rowSum (max image.columns image.columns)
        (fun x => fuzzPixelVec image image channel
          (image.pixel x y) (image.pixel x y)))).2 .composite = 0 := by
    refine accumRows_slot_zero _ _ _ _ _ _ ?_
    intro acc y hz
    exact addVec_rowZero _ _ _ hz
      (rowSum_slot_zero _ _ _ (fun x => fuzzPixelVec_self _ _ _ rfl _ _))
  rw [if_pos rfl, hacc]
  simp

theorem GetMeanAbsoluteDistortion_self (image : Image) (channel : ChannelType) :
    (GetMeanAbsoluteDistortion image image channel).2 .composite = 0 := by
  unfold GetMeanAbsoluteDistortion
  dsimp only
  have hacc : (accumRows image image (max image.rows image.rows) addVec
      (fun y => rowSum (max image.columns image.columns)
        (fun x => meanAbsolutePixelVec image image channel
          (image.pixel x y) (image.pixel x y)))).2 .composite = 0 := by
    refine accumRows_slot_zero _ _ _ _ _ _ ?_
    intro acc y hz
    exact addVec_rowZero _ _ _ hz
      (rowSum_slot_zero _ _ _ (fun x => meanAbsolutePixelVec_self _ _ _ rfl _ _))
  rw [if_pos rfl, hacc]
  simp

theorem GetMeanSquaredDistortion_self (image : Image) (channel : ChannelType) (s : Slot) :
    (GetMeanSquaredDistortion image image channel).2 s = 0 :=
  GetMeanSquaredDistortion_slot_zero _ _ _ _
    (fun x y => meanSquaredPixelVec_self _ _ _ rfl _ s)

theorem GetMeanErrorPerPixel_self (image : Image) (channel : ChannelType) :
    (GetMeanErrorPerPixel image image channel).2 .composite = 0 := by
  unfold GetMeanErrorPerPixel
  refine accumRows_slot_zero _ _ _ _ _ _ ?_
  intro acc y hz
  exact addVec_rowZero _ _ _ hz
    (rowSum_slot_zero _ _ _ (fun x => meppPixelVec_self _ _ _ rfl _ _))

theorem GetPeakAbsoluteDistortion_self (image : Image) (channel : ChannelType) :
    (GetPeakAbsoluteDistortion image image channel).2 .composite = 0 := by
  unfold GetPeakAbsoluteDistortion
  refine accumRows_slot_zero _ _ _ _ _ _ ?_
  intro acc y hz
  have hr : rowMax (max image.columns image.columns)
      (fun x => peakPixelVec image image channel
        (image.pixel x y) (image.pixel x y)) .composite = 0 :=
    rowMax_slot_zero _ _ _ (fun x => peakPixelVec_self _ _ _ rfl _ _)
  show max (acc .composite) _ = 0
  rw [hz, hr]
  exact max_self 0

/-- The claim C3 amended: for every image and channel mask, comparing the
image against itself yields composite distortion zero (or positive infinity
for the peak-signal-to-noise-ratio metric) for every metric except the
perceptual hash, the normalized cross-correlation, and the undefined metric
(which dispatches to the correlation branch); the correlation metric instead
normalizes each non-degenerate channel to one. -/
theorem self_distortion_zero (image : Image) (channel : ChannelType)
    (metric : MetricType)
    (h1 : metric ≠ .normalizedCrossCorrelation) (h2 : metric ≠ .undefined)
    (h3 : metric ≠ .perceptualHash) :
    (GetImageChannelDistortion image image channel metric).2 =
      if metric = .peakSignalToNoiseRatio then (⊤ : EReal) else 0 := by
  have hval : ValidateImageMorphology image image = true := by
    simp [ValidateImageMorphology]
  have hcond : ¬(metric ≠ .perceptualHash ∧ ValidateImageMorphology image image = false) := by
    simp [hval]
  unfold GetImageChannelDistortion
  rw [if_neg hcond]
  cases metric with
  | undefined => exact absurd rfl h2
  | normalizedCrossCorrelation => exact absurd rfl h1
  | perceptualHash => exact absurd rfl h3
  | absoluteError =>
    unfold metricVector
    dsimp only
    rw [GetAbsoluteDistortion_self]
    norm_num
    rw [if_neg (by decide)]
  | fuzzError =>
    unfold metricVector
    dsimp only
    rw [GetFuzzDistortion_self]
    norm_num
    rw [if_neg (by decide)]
  | meanAbsoluteError =>
    unfold metricVector
    dsimp only
    rw [GetMeanAbsoluteDistortion_self]
    norm_num
    rw [if_neg (by decide)]
  | meanErrorPerPixel =>
    unfold metricVector
    dsimp only
    rw [GetMeanErrorPerPixel_self]
    norm_num
    rw [if_neg (by decide)]
  | meanSquaredError =>
    unfold metricVector
    dsimp only
    rw [GetMeanSquaredDistortion_self]
    norm_num
    rw [if_neg (by decide)]
  | peakAbsoluteError =>
    unfold metricVector
    dsimp only
    rw [GetPeakAbsoluteDistortion_self]
    norm_num
    rw [if_neg (by decide)]
  | peakSignalToNoiseRatio =>
    unfold metricVector GetPeakSignalToNoiseRatio
    dsimp only
    rw [GetMeanSquaredDistortion_self]
    unfold psnrTransform
    rw [if_pos (by norm_num [MagickEpsilon])]
    norm_num
  | rootMeanSquaredError =>
    unfold metricVector GetRootMeanSquaredDistortion
    dsimp only
    rw [GetMeanSquaredDistortion_self]
    norm_num
    rw [if_neg (by decide)]

/-- A closed witness for the self-comparison theorem: the gradient image
compared against itself yields zero for the root-mean-squared-error metric
and positive infinity for the peak-signal-to-noise-ratio metric. -/
theorem self_distortion_zero_witness :
    (GetImageChannelDistortion gradientImage gradientImage CompositeChannels
        .rootMeanSquaredError).2 = 0 ∧
      (GetImageChannelDistortion gradientImage gradientImage CompositeChannels
        .peakSignalToNoiseRatio).2 = (⊤ : EReal) := by
  constructor
  · have h := self_distortion_zero gradientImage CompositeChannels .rootMeanSquaredError
      (by decide) (by decide) (by decide)
    simpa using h
  · have h := self_distortion_zero gradientImage CompositeChannels .peakSignalToNoiseRatio
      (by decide) (by decide) (by decide)
    simpa using h

theorem nccRawSum_gradient_red :
    (nccRawSum gradientImage gradientImage CompositeChannels).2 .red = 65535 / 4 := by
  norm_num [nccRawSum, nccPixelVec, accumRows, rowSum, addVec, zeroVec, channelMean,
    slotValue, gradientImage, mkImage, blackPixel, whitePixel, CompositeChannels,
    GetPixelAlpha, QuantumScale, QuantumRange, OpaqueOpacity, List.range_succ,
    Finset.sum_range_succ]

theorem nccRawSum_gradient_green :
    (nccRawSum gradientImage gradientImage CompositeChannels).2 .green = 65535 / 4 := by
  norm_num [nccRawSum, nccPixelVec, accumRows, rowSum, addVec, zeroVec, channelMean,
    slotValue, gradientImage, mkImage, blackPixel, whitePixel, CompositeChannels,
    GetPixelAlpha, QuantumScale, QuantumRange, OpaqueOpacity, List.range_succ,
    Finset.sum_range_succ]

theorem nccRawSum_gradient_blue :
    (nccRawSum gradientImage gradientImage CompositeChannels).2 .blue = 65535 / 4 := by
  norm_num [nccRawSum, nccPixelVec, accumRows, rowSum, addVec, zeroVec, channelMean,
    slotValue, gradientImage, mkImage, blackPixel, whitePixel, CompositeChannels,
    GetPixelAlpha, QuantumScale, QuantumRange, OpaqueOpacity, List.range_succ,
    Finset.sum_range_succ]

theorem gradient_sd_mul_self (s : Slot) (hvar : channelVariance gradientImage s = 65535 ^ 2 / 4) :
    standardDeviation gradientImage s * standardDeviation gradientImage s =
      ((65535 : ℝ) ^ 2 / 4) := by
  unfold standardDeviation
  rw [hvar, Real.mul_self_sqrt (by positivity)]
  push_cast
  ring

theorem gradient_variance_red : channelVariance gradientImage .red = 65535 ^ 2 / 4 := by
  norm_num [channelVariance, channelMean, slotValue, gradientImage, mkImage, blackPixel,
    whitePixel, Finset.sum_range_succ]

theorem gradient_variance_green : channelVariance gradientImage .green = 65535 ^ 2 / 4 := by
  norm_num [channelVariance, channelMean, slotValue, gradientImage, mkImage, blackPixel,
    whitePixel, Finset.sum_range_succ]

theorem gradient_variance_blue : channelVariance gradientImage .blue = 65535 ^ 2 / 4 := by
  norm_num [channelVariance, channelMean, slotValue, gradientImage, mkImage, blackPixel,
    whitePixel, Finset.sum_range_succ]

theorem nccChannel_gradient_one (s : Slot)
    (hvar : channelVariance gradientImage s = 65535 ^ 2 / 4)
    (hraw : (nccRawSum gradientImage gradientImage CompositeChannels).2 s = 65535 / 4) :
    nccChannel gradientImage gradientImage CompositeChannels s = 1 := by
  unfold nccChannel
  rw [gradient_sd_mul_self s hvar, hraw]
  unfold PerceptibleReciprocal
  dsimp only
  rw [if_neg (show ¬((65535 : ℝ) ^ 2 / 4 < 0) by norm_num)]
  rw [if_pos (show ((MagickEpsilon : ℚ) : ℝ) ≤ 1 * ((65535 : ℝ) ^ 2 / 4) by
    rw [show ((MagickEpsilon : ℚ) : ℝ) = 1 / 10 ^ 15 by norm_num [MagickEpsilon]]
    norm_num)]
  norm_num [QuantumRange]

/-- The claim C3 is violated by the code for the correlation metric: the
normalized cross-correlation of the two-pixel gradient image with itself has
composite distortion one (each non-degenerate channel normalizes to its own
variance), not zero, although the metric is not the perceptual hash. -/
theorem self_ncc_counterexample :
    MetricType.normalizedCrossCorrelation ≠ MetricType.perceptualHash ∧
      (GetImageChannelDistortion gradientImage gradientImage CompositeChannels
        .normalizedCrossCorrelation).2 = (1 : EReal) ∧
      (1 : EReal) ≠ 0 := by
  have hcR : nccChannel gradientImage gradientImage CompositeChannels .red = 1 :=
    nccChannel_gradient_one .red gradient_variance_red nccRawSum_gradient_red
  have hcG : nccChannel gradientImage gradientImage CompositeChannels .green = 1 :=
    nccChannel_gradient_one .green gradient_variance_green nccRawSum_gradient_green
  have hcB : nccChannel gradientImage gradientImage CompositeChannels .blue = 1 :=
    nccChannel_gradient_one .blue gradient_variance_blue nccRawSum_gradient_blue
  have hcomp : (GetNormalizedCrossCorrelationDistortion gradientImage gradientImage
      CompositeChannels).2 .composite = 1 := by
    unfold GetNormalizedCrossCorrelationDistortion
    dsimp only
    rw [if_pos rfl, hcR, hcG, hcB]
    have hn : (GetNumberChannels gradientImage CompositeChannels : ℝ) = 3 := by
      norm_num [GetNumberChannels, gradientImage, mkImage, CompositeChannels]
    rw [hn]
    norm_num [gradientImage, mkImage, CompositeChannels]
  have hval : ValidateImageMorphology gradientImage gradientImage = true := by
    simp [ValidateImageMorphology]
  refine ⟨by decide, ?_, by norm_num⟩
  unfold GetImageChannelDistortion
  rw [if_neg (by simp [hval])]
  unfold metricVector
  dsimp only
  rw [hcomp]
  norm_num

set_option maxHeartbeats 1000000 in
theorem meanSquaredPixelVec_nonneg (image reconstruct : Image) (channel : ChannelType)
    (p q : Pixel) (s : Slot) : 0 ≤ meanSquaredPixelVec image reconstruct channel p q s := by
  cases s
  all_goals
    simp only [meanSquaredPixelVec]
    split_ifs <;> positivity

theorem GetMeanSquaredDistortion_nonneg (image reconstruct : Image)
    (channel : ChannelType) (s : Slot) :
    0 ≤ (GetMeanSquaredDistortion image reconstruct channel).2 s := by
  have hacc : 0 ≤ (accumRows image reconstruct (max image.rows reconstruct.rows) addVec
      (fun y => rowSum (max image.columns reconstruct.columns)
        (fun x => meanSquaredPixelVec image reconstruct channel
          (image.pixel x y) (reconstruct.pixel x y)))).2 s := by
    refine accumRows_slot_nonneg _ _ _ _ _ ?_
    intro y
    exact rowSum_slot_nonneg _ _ _ (fun x => meanSquaredPixelVec_nonneg _ _ _ _ _ _)
  unfold GetMeanSquaredDistortion
  dsimp only
  split_ifs
  · refine div_nonneg (div_nonneg hacc ?_) (Nat.cast_nonneg _)
    positivity
  · refine div_nonneg hacc ?_
    positivity

theorem logb_ten_small : Real.logb 10 ((1 : ℝ) / 10 ^ 11) = -11 := by
  have h10 : (0 : ℝ) < Real.log 10 := Real.log_pos (by norm_num)
  have hz : ((1 : ℝ) / 10 ^ 11) = (10 : ℝ) ^ (-11 : ℤ) := by
    rw [zpow_neg]
    norm_num
  rw [hz, Real.logb, Real.log_zpow]
  field_simp

/-- The claim C6 amended: the peak-signal-to-noise-ratio composite is
positive infinity when the mean-squared-error composite is below
`MagickEpsilon`; it is `-10 log10(MSE)` only when the mean-squared error is
at least `Log10Epsilon = 1.0e-11`; and for values in between it saturates at
`110 = -10 log10(1.0e-11)` because `MagickLog10` clamps its argument. -/
theorem psnr_composite_formula (image reconstruct : Image) (channel : ChannelType) :
    (GetPeakSignalToNoiseRatio image reconstruct channel).2 .composite =
      if ((GetMeanSquaredDistortion image reconstruct channel).2 .composite : ℝ) <
          ((MagickEpsilon : ℚ) : ℝ) then (⊤ : EReal)
      else if ((GetMeanSquaredDistortion image reconstruct channel).2 .composite : ℝ) <
          1 / 10 ^ 11 then ((110 : ℝ) : EReal)
      else ((-10 * Real.logb 10
        ((GetMeanSquaredDistortion image reconstruct channel).2 .composite : ℝ) : ℝ) :
          EReal) := by
  have hm0 : (0 : ℚ) ≤ (GetMeanSquaredDistortion image reconstruct channel).2 .composite :=
    GetMeanSquaredDistortion_nonneg image reconstruct channel .composite
  have hm0' : (0 : ℝ) ≤ ((GetMeanSquaredDistortion image reconstruct channel).2
      .composite : ℝ) := by exact_mod_cast hm0
  have hlog1 : MagickLog10 1 = 0 := by
    unfold MagickLog10
    rw [if_neg (by rw [abs_one]; norm_num), abs_one, Real.logb_one]
  unfold GetPeakSignalToNoiseRatio
  dsimp only
  unfold psnrTransform
  rw [abs_of_nonneg hm0]
  by_cases h1 : (GetMeanSquaredDistortion image reconstruct channel).2 .composite <
      MagickEpsilon
  · rw [if_pos h1, if_pos (by exact_mod_cast h1)]
  · rw [if_neg h1, if_neg (show ¬(((GetMeanSquaredDistortion image reconstruct
        channel).2 .composite : ℝ) < ((MagickEpsilon : ℚ) : ℝ)) by exact_mod_cast h1)]
    rw [hlog1]
    unfold MagickLog10
    rw [abs_of_nonneg hm0']
    by_cases h2 : ((GetMeanSquaredDistortion image reconstruct channel).2 .composite : ℝ) <
        1 / 10 ^ 11
    · rw [if_pos h2, if_pos h2, logb_ten_small, EReal.coe_eq_coe_iff]
      norm_num
    · rw [if_neg h2, if_neg h2, EReal.coe_eq_coe_iff]
      ring

theorem almostBlack_mse :
    (GetMeanSquaredDistortion almostBlackImage blackImage8 rgbMask).2 .composite =
      1 / 103076069400 := by
  norm_num [GetMeanSquaredDistortion, meanSquaredPixelVec, accumRows, rowSum, addVec,
    zeroVec, almostBlackImage, blackImage8, mkImage, rgbMask, blackPixel,
    GetNumberChannels, GetPixelAlpha, QuantumScale, QuantumRange, OpaqueOpacity,
    List.range_succ, Finset.sum_range_succ]

/-- The claim C6 is violated by the code: against the eight-pixel
almost-black image the mean-squared-error composite is `1/103076069400`,
which is not below `MagickEpsilon`, yet the peak-signal-to-noise-ratio
composite is the saturated value `110` rather than `-10 log10(MSE)`
(`MagickLog10` clamps its argument at `1.0e-11`, and the mean squared error
lies strictly below that clamp). -/
theorem psnr_clamp_counterexample :
    ¬(((GetMeanSquaredDistortion almostBlackImage blackImage8 rgbMask).2 .composite : ℝ) <
        ((MagickEpsilon : ℚ) : ℝ)) ∧
      (GetPeakSignalToNoiseRatio almostBlackImage blackImage8 rgbMask).2 .composite =
        ((110 : ℝ) : EReal) ∧
      (GetPeakSignalToNoiseRatio almostBlackImage blackImage8 rgbMask).2 .composite ≠
        ((-10 * Real.logb 10
          ((GetMeanSquaredDistortion almostBlackImage blackImage8 rgbMask).2
            .composite : ℝ) : ℝ) : EReal) := by
  have hm := almostBlack_mse
  have heps : ¬(((GetMeanSquaredDistortion almostBlackImage blackImage8 rgbMask).2
      .composite : ℝ) < ((MagickEpsilon : ℚ) : ℝ)) := by
    rw [hm]
    rw [show ((MagickEpsilon : ℚ) : ℝ) = 1 / 10 ^ 15 by norm_num [MagickEpsilon]]
    push_cast
    norm_num
  have hsmall : (((GetMeanSquaredDistortion almostBlackImage blackImage8 rgbMask).2
      .composite : ℝ)) < 1 / 10 ^ 11 := by
    rw [hm]
    push_cast
    norm_num
  have hval : (GetPeakSignalToNoiseRatio almostBlackImage blackImage8 rgbMask).2
      .composite = ((110 : ℝ) : EReal) := by
    rw [psnr_composite_formula, if_neg heps, if_pos hsmall]
  have hlogb : Real.logb 10 (((GetMeanSquaredDistortion almostBlackImage blackImage8
      rgbMask).2 .composite : ℝ)) < -11 := by
    calc Real.logb 10 (((GetMeanSquaredDistortion almostBlackImage blackImage8
          rgbMask).2 .composite : ℝ)) <
        Real.logb 10 ((1 : ℝ) / 10 ^ 11) := by
          refine Real.logb_lt_logb (by norm_num) ?_ hsmall
          rw [hm]
          push_cast
          norm_num
      _ = -11 := logb_ten_small
  refine ⟨heps, hval, ?_⟩
  rw [hval]
  intro hcontra
  rw [EReal.coe_eq_coe_iff] at hcontra
  nlinarith [hlogb]

theorem foldl_preserves_mem {α β : Type _} (P : α → Prop) (f : α → β → α) :
    ∀ (l : List β), (∀ a b, b ∈ l → P a → P (f a b)) → ∀ a, P a → P (l.foldl f a) := by
  intro l
  induction l with
  | nil => intro _ a ha; exact ha
  | cons b l ih =>
    intro hstep a ha
    exact ih (fun a' b' hb' => hstep a' b' (List.mem_cons_of_mem b hb'))
      (f a b) (hstep a b (List.mem_cons_self b l) ha)

theorem scanStep_skip (image reference : Image) (metric : MetricType) (thr : ℚ)
    (y x : ℕ) (s : ScanState) (h : s.best ≤ ((thr : ℝ) : EReal)) :
    scanStep image reference metric thr y x s = s := by
  unfold scanStep
  rw [if_pos h]

theorem scanList_skip (image reference : Image) (metric : MetricType) (thr : ℚ)
    (l : List (ℕ × ℕ)) (s : ScanState) (h : s.best ≤ ((thr : ℝ) : EReal)) :
    scanList image reference metric thr l s = s := by
  induction l with
  | nil => rfl
  | cons p l ih =>
    unfold scanList at ih ⊢
    rw [List.foldl_cons, scanStep_skip image reference metric thr p.2 p.1 s h]
    exact ih

theorem scanList_append (image reference : Image) (metric : MetricType) (thr : ℚ)
    (l1 l2 : List (ℕ × ℕ)) (s : ScanState) :
    scanList image reference metric thr (l1 ++ l2) s =
      scanList image reference metric thr l2 (scanList image reference metric thr l1 s) := by
  unfold scanList
  exact List.foldl_append _ _ _ _

theorem scanUpdate_best (metric : MetricType) (x y : ℕ) (similarity : EReal)
    (s : ScanState) :
    (scanUpdate metric x y similarity s).best =
      if similarity < s.best then similarity else s.best := by
  unfold scanUpdate
  by_cases h : similarity < s.best <;> simp [h]

theorem scanUpdate_offx (metric : MetricType) (x y : ℕ) (similarity : EReal)
    (s : ScanState) :
    (scanUpdate metric x y similarity s).offx =
      if similarity < s.best then x else s.offx := by
  unfold scanUpdate
  by_cases h : similarity < s.best <;> simp [h]

theorem scanUpdate_offy (metric : MetricType) (x y : ℕ) (similarity : EReal)
    (s : ScanState) :
    (scanUpdate metric x y similarity s).offy =
      if similarity < s.best then y else s.offy := by
  unfold scanUpdate
  by_cases h : similarity < s.best <;> simp [h]

theorem scanUpdate_conf_self (metric : MetricType) (x y : ℕ) (similarity : EReal)
    (s : ScanState) : ((scanUpdate metric x y similarity s).conf x y).isSome := by
  unfold scanUpdate
  simp

theorem scanUpdate_conf_other (metric : MetricType) (x y : ℕ) (similarity : EReal)
    (s : ScanState) (a b : ℕ) (h : ¬(a = x ∧ b = y)) :
    (scanUpdate metric x y similarity s).conf a b = s.conf a b := by
  unfold scanUpdate
  by_cases hlt : similarity < s.best <;> simp [h, hlt]

theorem scanStep_best_le (image reference : Image) (metric : MetricType) (thr : ℚ)
    (y x : ℕ) (s : ScanState) :
    (scanStep image reference metric thr y x s).best ≤ s.best := by
  unfold scanStep
  by_cases h1 : s.best ≤ ((thr : ℝ) : EReal)
  · rw [if_pos h1]
  · rw [if_neg h1, scanUpdate_best]
    by_cases h2 : scoreUsed image reference metric x y < s.best
    · rw [if_pos h2]
      exact le_of_lt h2
    · rw [if_neg h2]

theorem scanList_best_le (image reference : Image) (metric : MetricType) (thr : ℚ)
    (l : List (ℕ × ℕ)) : ∀ s : ScanState,
    (scanList image reference metric thr l s).best ≤ s.best := by
  induction l with
  | nil => intro s; exact le_rfl
  | cons p l ih =>
    intro s
    unfold scanList
    rw [List.foldl_cons]
    exact le_trans (ih (scanStep image reference metric thr p.2 p.1 s))
      (scanStep_best_le image reference metric thr p.2 p.1 s)

theorem scanStep_conf_isSome (image reference : Image) (metric : MetricType) (thr : ℚ)
    (y x : ℕ) (s : ScanState) (a b : ℕ) (h : (s.conf a b).isSome) :
    ((scanStep image reference metric thr y x s).conf a b).isSome := by
  unfold scanStep
  by_cases h1 : s.best ≤ ((thr : ℝ) : EReal)
  · rw [if_pos h1]
    exact h
  · rw [if_neg h1]
    by_cases h2 : a = x ∧ b = y
    · obtain ⟨ha, hb⟩ := h2
      subst ha
      subst hb
      exact scanUpdate_conf_self metric a b _ s
    · rw [scanUpdate_conf_other metric x y _ s a b h2]
      exact h

theorem scanList_conf_isSome (image reference : Image) (metric : MetricType) (thr : ℚ)
    (l : List (ℕ × ℕ)) (s : ScanState) (a b : ℕ) (h : (s.conf a b).isSome) :
    ((scanList image reference metric thr l s).conf a b).isSome := by
  refine foldl_preserves (fun st => (st.conf a b).isSome) _ ?_ l s h
  intro st p hst
  exact scanStep_conf_isSome image reference metric thr p.2 p.1 st a b hst

theorem scanStep_conf_other (image reference : Image) (metric : MetricType) (thr : ℚ)
    (y x : ℕ) (s : ScanState) (a b : ℕ) (h : ¬(a = x ∧ b = y)) :
    (scanStep image reference metric thr y x s).conf a b = s.conf a b := by
  unfold scanStep
  by_cases h1 : s.best ≤ ((thr : ℝ) : EReal)
  · rw [if_pos h1]
  · rw [if_neg h1]
    exact scanUpdate_conf_other metric x y _ s a b h

theorem scanList_conf_notMem (image reference : Image) (metric : MetricType) (thr : ℚ)
    (l : List (ℕ × ℕ)) : ∀ (s : ScanState) (p : ℕ × ℕ), p ∉ l →
    (scanList image reference metric thr l s).conf p.1 p.2 = s.conf p.1 p.2 := by
  induction l with
  | nil => intro s p _; rfl
  | cons q l ih =>
    intro s p hp
    have hq : p ≠ q := fun h => hp (h ▸ List.mem_cons_self q l)
    have hl : p ∉ l := fun h => hp (List.mem_cons_of_mem q h)
    unfold scanList
    rw [List.foldl_cons]
    have := ih (scanStep image reference metric thr q.2 q.1 s) p hl
    unfold scanList at this
    rw [this]
    refine scanStep_conf_other image reference metric thr q.2 q.1 s p.1 p.2 ?_
    intro hc
    exact hq (Prod.ext hc.1 hc.2)

theorem scanList_best_nonneg (image reference : Image) (metric : MetricType) (thr : ℚ)
    (l : List (ℕ × ℕ))
    (hl : ∀ p ∈ l, 0 ≤ scoreUsed image reference metric p.1 p.2)
    (s : ScanState) (hs : 0 ≤ s.best) :
    0 ≤ (scanList image reference metric thr l s).best := by
  refine foldl_preserves_mem (fun st => 0 ≤ st.best) _ l ?_ s hs
  intro st p hp hst
  unfold scanStep
  by_cases h1 : st.best ≤ ((thr : ℝ) : EReal)
  · rw [if_pos h1]
    exact hst
  · rw [if_neg h1, scanUpdate_best]
    by_cases h2 : scoreUsed image reference metric p.1 p.2 < st.best
    · rw [if_pos h2]
      exact hl p hp
    · rw [if_neg h2]
      exact hst

theorem scanList_main (image reference : Image) (metric : MetricType) (thr : ℚ)
    (l : List (ℕ × ℕ)) : ∀ s : ScanState,
    (∀ p ∈ l, ((thr : ℝ) : EReal) < scoreUsed image reference metric p.1 p.2) →
    ((thr : ℝ) : EReal) < s.best →
    ((thr : ℝ) : EReal) < (scanList image reference metric thr l s).best ∧
      (∀ p ∈ l, (scanList image reference metric thr l s).best ≤
        scoreUsed image reference metric p.1 p.2) ∧
      (scanList image reference metric thr l s).best ≤ s.best ∧
      (∀ p ∈ l, ((scanList image reference metric thr l s).conf p.1 p.2).isSome) ∧
      ((scanList image reference metric thr l s).best = s.best ∧
          (scanList image reference metric thr l s).offx = s.offx ∧
          (scanList image reference metric thr l s).offy = s.offy ∨
        ∃ p ∈ l, (scanList image reference metric thr l s).offx = p.1 ∧
          (scanList image reference metric thr l s).offy = p.2 ∧
          (scanList image reference metric thr l s).best =
            scoreUsed image reference metric p.1 p.2) := by
  induction l with
  | nil =>
    intro s _ h0
    exact ⟨h0, by simp, le_rfl, by simp, Or.inl ⟨rfl, rfl, rfl⟩⟩
  | cons p l ih =>
    intro s hl h0
    have hstep : scanStep image reference metric thr p.2 p.1 s =
        scanUpdate metric p.1 p.2 (scoreUsed image reference metric p.1 p.2) s := by
      unfold scanStep
      rw [if_neg (not_le.mpr h0)]
    have hscore := hl p (List.mem_cons_self p l)
    have hbest' : ((thr : ℝ) : EReal) <
        (scanStep image reference metric thr p.2 p.1 s).best := by
      rw [hstep, scanUpdate_best]
      split_ifs with h
      · exact hscore
      · exact h0
    have hle' : (scanStep image reference metric thr p.2 p.1 s).best ≤
        scoreUsed image reference metric p.1 p.2 := by
      rw [hstep, scanUpdate_best]
      split_ifs with h
      · exact le_rfl
      · exact not_lt.mp h
    have hlbest : (scanStep image reference metric thr p.2 p.1 s).best ≤ s.best :=
      scanStep_best_le image reference metric thr p.2 p.1 s
    have hconf' : ((scanStep image reference metric thr p.2 p.1 s).conf p.1 p.2).isSome := by
      rw [hstep]
      exact scanUpdate_conf_self metric p.1 p.2 _ s
    have hshape' : (scanStep image reference metric thr p.2 p.1 s).best = s.best ∧
        (scanStep image reference metric thr p.2 p.1 s).offx = s.offx ∧
        (scanStep image reference metric thr p.2 p.1 s).offy = s.offy ∨
        (scanStep image reference metric thr p.2 p.1 s).offx = p.1 ∧
        (scanStep image reference metric thr p.2 p.1 s).offy = p.2 ∧
        (scanStep image reference metric thr p.2 p.1 s).best =
          scoreUsed image reference metric p.1 p.2 := by
      rw [hstep, scanUpdate_best, scanUpdate_offx, scanUpdate_offy]
      split_ifs with h
      · exact Or.inr ⟨rfl, rfl, rfl⟩
      · exact Or.inl ⟨rfl, rfl, rfl⟩
    have hltail : ∀ q ∈ l, ((thr : ℝ) : EReal) <
        scoreUsed image reference metric q.1 q.2 :=
      fun q hq => hl q (List.mem_cons_of_mem p hq)
    obtain ⟨ih1, ih2, ih3, ih4, ih5⟩ :=
      ih (scanStep image reference metric thr p.2 p.1 s) hltail hbest'
    have hfold : scanList image reference metric thr (p :: l) s =
        scanList image reference metric thr l
          (scanStep image reference metric thr p.2 p.1 s) := by
      unfold scanList
      rw [List.foldl_cons]
    refine ⟨by rw [hfold]; exact ih1, ?_, ?_, ?_, ?_⟩
    · intro q hq
      rw [hfold]
      rcases List.mem_cons.mp hq with h | h
      · subst h
        exact le_trans ih3 hle'
      · exact ih2 q h
    · rw [hfold]
      exact le_trans ih3 hlbest
    · intro q hq
      rw [hfold]
      rcases List.mem_cons.mp hq with h | h
      · subst h
        exact scanList_conf_isSome image reference metric thr l _ q.1 q.2 hconf'
      · exact ih4 q h
    · rw [hfold]
      rcases ih5 with ⟨hb, hx, hy⟩ | ⟨q, hq, hx, hy, hb⟩
      · rcases hshape' with ⟨hb2, hx2, hy2⟩ | ⟨hx2, hy2, hb2⟩
        · exact Or.inl ⟨hb.trans hb2, hx.trans hx2, hy.trans hy2⟩
        · exact Or.inr ⟨p, List.mem_cons_self p l,
            hx.trans hx2, hy.trans hy2, hb.trans hb2⟩
      · exact Or.inr ⟨q, List.mem_cons_of_mem p hq, hx, hy, hb⟩

theorem scanRow_eq_scanList (image reference : Image) (metric : MetricType) (thr : ℚ)
    (s : ScanState) (y : ℕ) :
    scanRow image reference metric thr s y =
      scanList image reference metric thr
        ((List.range (candWidth image reference)).map (fun x => (x, y))) s := by
  unfold scanRow
  by_cases h : s.best ≤ ((thr : ℝ) : EReal)
  · rw [if_pos h, scanList_skip image reference metric thr _ s h]
  · rw [if_neg h]
    unfold scanList
    rw [List.foldl_map]

theorem similarityScan_eq_scanList (image reference : Image) (metric : MetricType) :
    similarityScan image reference metric =
      scanList image reference metric (thrOf image) (candList image reference) scanStart := by
  unfold similarityScan candList
  have aux : ∀ n : ℕ,
      (List.range n).foldl (scanRow image reference metric (thrOf image)) scanStart =
        scanList image reference metric (thrOf image)
          ((List.range n).flatMap
            (fun y => (List.range (candWidth image reference)).map (fun x => (x, y))))
          scanStart := by
    intro n
    induction n with
    | zero => rfl
    | succ n ih =>
      rw [List.range_succ, List.foldl_append, List.flatMap_append, scanList_append, ← ih]
      simp only [List.foldl_cons, List.foldl_nil, List.flatMap_cons, List.flatMap_nil,
        List.append_nil]
      exact scanRow_eq_scanList image reference metric (thrOf image) _ n
  exact aux (candHeight image reference)

theorem mem_candList (image reference : Image) (x y : ℕ) :
    (x, y) ∈ candList image reference ↔
      x < candWidth image reference ∧ y < candHeight image reference := by
  unfold candList
  simp only [List.mem_flatMap, List.mem_map, List.mem_range, Prod.mk.injEq]
  constructor
  · rintro ⟨y', hy', x', hx', hxx, hyy⟩
    subst hxx
    subst hyy
    exact ⟨hx', hy'⟩
  · rintro ⟨hx, hy⟩
    exact ⟨y, hy, x, hx, rfl, rfl⟩

theorem candList_nodup (image reference : Image) : (candList image reference).Nodup := by
  unfold candList
  refine List.nodup_flatMap.mpr ⟨?_, ?_⟩
  · intro y _
    refine (List.nodup_range _).map ?_
    intro a b hab
    exact congrArg Prod.fst hab
  · refine (List.pairwise_lt_range _).imp ?_
    intro a b hab
    intro q hqa hqb
    rcases List.mem_map.mp hqa with ⟨x1, _, hx1⟩
    rcases List.mem_map.mp hqb with ⟨x2, _, hx2⟩
    have ha : q.2 = a := by rw [← hx1]
    have hb : q.2 = b := by rw [← hx2]
    exact absurd (ha ▸ hb) (Nat.ne_of_lt hab)

theorem notMem_take_of_mem_drop {l : List (ℕ × ℕ)} (hnodup : l.Nodup) (n : ℕ)
    {p : ℕ × ℕ} (hp : p ∈ l.drop n) : p ∉ l.take n := by
  have h := hnodup
  rw [← List.take_append_drop n l] at h
  rcases List.nodup_append.mp h with ⟨_, _, hdisj⟩
  intro hmem
  exact hdisj hmem hp

/-- The claim C7 states: in the similarity search the comparison score is
`1 - rawMetric` for the correlation metric and the undefined default, and
the raw distortion for every other metric; and (when no candidate's score
reaches the early-exit threshold, as with the default absent threshold) the
retained result is the offset achieving the lowest such score — either no
candidate improved on the `MagickMaximumValue` initialisation, or the
reported offset is a valid candidate whose score equals the reported best
score, which is a lower bound on all candidate scores. -/
theorem similarity_scan_retains_lowest (image reference : Image) (metric : MetricType)
    (hmorph : ValidateImageMorphology image reference = true)
    (hinit : thrOf image < MagickMaximumValue)
    (hsc : ∀ x y, x < candWidth image reference → y < candHeight image reference →
      ((thrOf image : ℝ) : EReal) < scoreUsed image reference metric x y) :
    (∀ x y, (metric = .normalizedCrossCorrelation ∨ metric = .undefined →
        scoreUsed image reference metric x y =
          1 - GetSimilarityMetric image reference metric x y) ∧
      (¬(metric = .normalizedCrossCorrelation ∨ metric = .undefined) →
        scoreUsed image reference metric x y =
          GetSimilarityMetric image reference metric x y)) ∧
    (∀ x y, x < candWidth image reference → y < candHeight image reference →
      (SimilarityMetricImage image reference metric).metricValue ≤
        scoreUsed image reference metric x y) ∧
    ((SimilarityMetricImage image reference metric).metricValue =
        ((MagickMaximumValue : ℝ) : EReal) ∧
        (SimilarityMetricImage image reference metric).offsetX = 0 ∧
        (SimilarityMetricImage image reference metric).offsetY = 0 ∨
      (SimilarityMetricImage image reference metric).offsetX < candWidth image reference ∧
        (SimilarityMetricImage image reference metric).offsetY < candHeight image reference ∧
        (SimilarityMetricImage image reference metric).metricValue =
          scoreUsed image reference metric
            (SimilarityMetricImage image reference metric).offsetX
            (SimilarityMetricImage image reference metric).offsetY) := by
  have hcond : ¬(ValidateImageMorphology image reference = false) := by simp [hmorph]
  have hproj : (SimilarityMetricImage image reference metric).metricValue =
      (similarityScan image reference metric).best ∧
      (SimilarityMetricImage image reference metric).offsetX =
        (similarityScan image reference metric).offx ∧
      (SimilarityMetricImage image reference metric).offsetY =
        (similarityScan image reference metric).offy := by
    unfold SimilarityMetricImage
    rw [if_neg hcond]
    exact ⟨rfl, rfl, rfl⟩
  have h0 : ((thrOf image : ℝ) : EReal) < scanStart.best := by
    unfold scanStart
    exact EReal.coe_lt_coe_iff.mpr (Rat.cast_lt.mpr hinit)
  have hl : ∀ p ∈ candList image reference,
      ((thrOf image : ℝ) : EReal) < scoreUsed image reference metric p.1 p.2 := by
    intro p hp
    obtain ⟨hx, hy⟩ := (mem_candList image reference p.1 p.2).mp hp
    exact hsc p.1 p.2 hx hy
  obtain ⟨m1, m2, m3, m4, m5⟩ := scanList_main image reference metric (thrOf image)
    (candList image reference) scanStart hl h0
  rw [← similarityScan_eq_scanList] at m2 m5
  refine ⟨?_, ?_, ?_⟩
  · intro x y
    constructor
    · intro h
      unfold scoreUsed
      rw [if_pos h]
    · intro h
      unfold scoreUsed
      rw [if_neg h]
  · intro x y hx hy
    rw [hproj.1]
    exact m2 (x, y) ((mem_candList image reference x y).mpr ⟨hx, hy⟩)
  · rcases m5 with ⟨hb, hx, hy⟩ | ⟨p, hp, hx, hy, hb⟩
    · exact Or.inl ⟨by rw [hproj.1, hb]; rfl, by rw [hproj.2.1, hx]; rfl,
        by rw [hproj.2.2, hy]; rfl⟩
    · obtain ⟨hxw, hyh⟩ := (mem_candList image reference p.1 p.2).mp hp
      refine Or.inr ⟨?_, ?_, ?_⟩
      · rw [hproj.2.1, hx]
        exact hxw
      · rw [hproj.2.2, hy]
        exact hyh
      · rw [hproj.1, hproj.2.1, hproj.2.2, hx, hy, hb]

theorem scoreUsed_rmse_nonneg (image reference : Image) (x y : ℕ) :
    0 ≤ scoreUsed image reference .rootMeanSquaredError x y := by
  unfold scoreUsed
  rw [if_neg (by simp)]
  unfold GetSimilarityMetric
  by_cases hc : image.cropFail x y = true
  · rw [if_pos hc]
  · rw [if_neg hc]
    unfold GetImageDistortion GetImageChannelDistortion
    by_cases hm : (MetricType.rootMeanSquaredError ≠ .perceptualHash ∧
        ValidateImageMorphology (cropImage image reference x y) reference = false)
    · rw [if_pos hm]
    · rw [if_neg hm]
      unfold metricVector GetRootMeanSquaredDistortion
      dsimp only
      exact EReal.coe_nonneg.mpr (Real.sqrt_nonneg _)

/-- The claim C10 states: when the external crop fails at a candidate
offset, `GetSimilarityMetric` returns distortion `0.0` rather than
signalling an error, so under the default root-mean-squared-error metric
(whose scores are all nonnegative) that candidate scores as a perfect match
and the retained best score of the scan is zero. -/
theorem crop_failure_scores_zero (image reference : Image) (x0 y0 : ℕ)
    (hfail : image.cropFail x0 y0 = true)
    (hx : x0 < candWidth image reference) (hy : y0 < candHeight image reference)
    (hthr : thrOf image < 0) :
    (∀ metric, GetSimilarityMetric image reference metric x0 y0 = 0) ∧
      (similarityScan image reference .rootMeanSquaredError).best = 0 := by
  have hscore0 : ∀ metric, GetSimilarityMetric image reference metric x0 y0 = 0 := by
    intro metric
    unfold GetSimilarityMetric
    rw [if_pos hfail]
  refine ⟨hscore0, ?_⟩
  have hmem : (x0, y0) ∈ candList image reference :=
    (mem_candList image reference x0 y0).mpr ⟨hx, hy⟩
  have hnn : ∀ p ∈ candList image reference,
      0 ≤ scoreUsed image reference .rootMeanSquaredError p.1 p.2 :=
    fun p _ => scoreUsed_rmse_nonneg image reference p.1 p.2
  have hmaxpos : (0 : ℚ) < MagickMaximumValue := by norm_num [MagickMaximumValue]
  have h0 : ((thrOf image : ℝ) : EReal) < scanStart.best := by
    unfold scanStart
    exact EReal.coe_lt_coe_iff.mpr (Rat.cast_lt.mpr (lt_trans hthr hmaxpos))
  have hl : ∀ p ∈ candList image reference,
      ((thrOf image : ℝ) : EReal) <
        scoreUsed image reference .rootMeanSquaredError p.1 p.2 := by
    intro p hp
    refine lt_of_lt_of_le ?_ (hnn p hp)
    rw [show (0 : EReal) = ((0 : ℝ) : EReal) from rfl]
    exact EReal.coe_lt_coe_iff.mpr (by exact_mod_cast hthr)
  obtain ⟨m1, m2, m3, m4, m5⟩ := scanList_main image reference .rootMeanSquaredError
    (thrOf image) (candList image reference) scanStart hl h0
  have hub : (scanList image reference .rootMeanSquaredError (thrOf image)
      (candList image reference) scanStart).best ≤ 0 := by
    have h := m2 (x0, y0) hmem
    have hs : scoreUsed image reference .rootMeanSquaredError x0 y0 = 0 := by
      unfold scoreUsed
      rw [if_neg (by simp)]
      exact hscore0 _
    rw [hs] at h
    exact h
  have hlb : 0 ≤ (scanList image reference .rootMeanSquaredError (thrOf image)
      (candList image reference) scanStart).best := by
    refine scanList_best_nonneg image reference .rootMeanSquaredError (thrOf image)
      (candList image reference) hnn scanStart ?_
    unfold scanStart
    rw [show (0 : EReal) = ((0 : ℝ) : EReal) from rfl]
    exact EReal.coe_le_coe_iff.mpr (by exact_mod_cast le_of_lt hmaxpos)
  rw [similarityScan_eq_scanList]
  exact le_antisymm hub hlb

/-- A closed witness for the crop-failure theorem: a one-pixel image whose
external crop always fails, scanned against a one-pixel reference with the
default metric and absent threshold, yields similarity `0` at the failing
offset and a retained best score of `0`. -/
theorem crop_failure_scores_zero_witness :
    cropFailImage.cropFail 0 0 = true ∧
      GetSimilarityMetric cropFailImage blackImage1 .rootMeanSquaredError 0 0 = 0 ∧
      (similarityScan cropFailImage blackImage1 .rootMeanSquaredError).best = 0 := by
  have h := crop_failure_scores_zero cropFailImage blackImage1 0 0 rfl (by decide)
    (by decide) (by norm_num [thrOf, cropFailImage, mkImage])
  exact ⟨rfl, h.1 .rootMeanSquaredError, h.2⟩

/-- The claim C8 amended: when the similarity-threshold artifact is present
and non-negative, once the shared best score is at or below the threshold
after some scan prefix, every remaining candidate offset is skipped and
keeps its unset confidence value; and when the threshold is absent or
negative, every candidate is scored provided every candidate score stays
strictly above the threshold value (the scan may still stop early when a
correlation-style score falls to or below the default `-1.0`). -/
theorem similarity_threshold_early_exit (image reference : Image) (metric : MetricType)
    (t : ℚ) (n : ℕ) (p : ℕ × ℕ)
    (ha : image.similarityThreshold = some t) (ht : 0 ≤ t)
    (hp : p ∈ (candList image reference).drop n)
    (hb : (scanList image reference metric (thrOf image)
        ((candList image reference).take n) scanStart).best ≤ ((t : ℝ) : EReal)) :
    (similarityScan image reference metric).conf p.1 p.2 = none ∧
      (∀ (image' reference' : Image) (metric' : MetricType),
        thrOf image' < 0 →
        (∀ q ∈ candList image' reference',
          ((thrOf image' : ℝ) : EReal) < scoreUsed image' reference' metric' q.1 q.2) →
        ∀ q ∈ candList image' reference',
          ((similarityScan image' reference' metric').conf q.1 q.2).isSome) := by
  constructor
  · have hthr : thrOf image = t := by
      unfold thrOf
      rw [ha]
      rfl
    rw [similarityScan_eq_scanList]
    have heq : scanList image reference metric (thrOf image)
        (candList image reference) scanStart =
        scanList image reference metric (thrOf image)
          ((candList image reference).drop n)
          (scanList image reference metric (thrOf image)
            ((candList image reference).take n) scanStart) := by
      rw [← scanList_append, List.take_append_drop]
    have hb' : (scanList image reference metric (thrOf image)
        ((candList image reference).take n) scanStart).best ≤
        ((thrOf image : ℝ) : EReal) := by
      conv_rhs => rw [hthr]
      exact hb
    rw [heq, scanList_skip _ _ _ _ _ _ hb']
    have hnotin := notMem_take_of_mem_drop (candList_nodup image reference) n hp
    rw [scanList_conf_notMem _ _ _ _ _ _ p hnotin]
    rfl
  · intro image' reference' metric' hthr' hsc q hq
    have hmaxpos : (0 : ℚ) < MagickMaximumValue := by norm_num [MagickMaximumValue]
    have h0 : ((thrOf image' : ℝ) : EReal) < scanStart.best := by
      unfold scanStart
      exact EReal.coe_lt_coe_iff.mpr (Rat.cast_lt.mpr (lt_trans hthr' hmaxpos))
    obtain ⟨_, _, _, m4, _⟩ := scanList_main image' reference' metric' (thrOf image')
      (candList image' reference') scanStart hsc h0
    rw [similarityScan_eq_scanList]
    exact m4 q hq

theorem rmse_black_self_zero :
    GetSimilarityMetric blackImage1 blackImage1 .rootMeanSquaredError 0 0 = 0 := by
  unfold GetSimilarityMetric
  rw [if_neg (by decide)]
  unfold GetImageDistortion GetImageChannelDistortion
  rw [if_neg (by
    intro h
    exact absurd h.2 (by decide))]
  unfold metricVector GetRootMeanSquaredDistortion
  dsimp only
  have hmse : (GetMeanSquaredDistortion (cropImage blackImage1 blackImage1 0 0)
      blackImage1 CompositeChannels).2 .composite = 0 := by
    norm_num [GetMeanSquaredDistortion, meanSquaredPixelVec, accumRows, rowSum, addVec,
      zeroVec, cropImage, blackImage1, mkImage, blackPixel, GetPixelAlpha, QuantumScale,
      QuantumRange, OpaqueOpacity, GetNumberChannels, CompositeChannels, List.range_succ,
      Finset.sum_range_succ]
  rw [hmse]
  norm_num

/-- A closed witness for the lowest-score theorem: for the one-pixel
self-similarity scan under the default metric, the hypotheses hold and the
reported best score is bounded by the score of the only candidate. -/
theorem similarity_scan_retains_lowest_witness :
    ValidateImageMorphology blackImage1 blackImage1 = true ∧
      thrOf blackImage1 < MagickMaximumValue ∧
      (SimilarityMetricImage blackImage1 blackImage1 .rootMeanSquaredError).metricValue ≤
        scoreUsed blackImage1 blackImage1 .rootMeanSquaredError 0 0 := by
  have h1 : ValidateImageMorphology blackImage1 blackImage1 = true := by decide
  have h2 : thrOf blackImage1 < MagickMaximumValue := by
    norm_num [thrOf, blackImage1, mkImage, MagickMaximumValue]
  have hscore : scoreUsed blackImage1 blackImage1 .rootMeanSquaredError 0 0 = 0 := by
    unfold scoreUsed
    rw [if_neg (by simp)]
    exact rmse_black_self_zero
  have h3 : ∀ x y, x < candWidth blackImage1 blackImage1 →
      y < candHeight blackImage1 blackImage1 →
      ((thrOf blackImage1 : ℝ) : EReal) <
        scoreUsed blackImage1 blackImage1 .rootMeanSquaredError x y := by
    intro x y hx hy
    have hw : candWidth blackImage1 blackImage1 = 1 := by decide
    have hh : candHeight blackImage1 blackImage1 = 1 := by decide
    rw [hw] at hx
    rw [hh] at hy
    have hx0 : x = 0 := by omega
    have hy0 : y = 0 := by omega
    subst hx0
    subst hy0
    rw [hscore]
    have hthr : thrOf blackImage1 = -1 := by norm_num [thrOf, blackImage1, mkImage]
    rw [hthr, show (0 : EReal) = ((0 : ℝ) : EReal) from rfl]
    exact EReal.coe_lt_coe_iff.mpr (by norm_num)
  exact ⟨h1, h2, (similarity_scan_retains_lowest blackImage1 blackImage1
    .rootMeanSquaredError h1 h2 h3).2.1 0 0 (by decide) (by decide)⟩

theorem rmse_thresholdZero_zero :
    scoreUsed thresholdZeroImage blackImage1 .rootMeanSquaredError 0 0 = 0 := by
  unfold scoreUsed
  rw [if_neg (by simp)]
  unfold GetSimilarityMetric
  rw [if_neg (by decide)]
  unfold GetImageDistortion GetImageChannelDistortion
  rw [if_neg (by
    intro h
    exact absurd h.2 (by decide))]
  unfold metricVector GetRootMeanSquaredDistortion
  dsimp only
  have hmse : (GetMeanSquaredDistortion (cropImage thresholdZeroImage blackImage1 0 0)
      blackImage1 CompositeChannels).2 .composite = 0 := by
    norm_num [GetMeanSquaredDistortion, meanSquaredPixelVec, accumRows, rowSum, addVec,
      zeroVec, cropImage, thresholdZeroImage, blackImage1, mkImage, blackPixel,
      GetPixelAlpha, QuantumScale, QuantumRange, OpaqueOpacity, GetNumberChannels,
      CompositeChannels, List.range_succ, Finset.sum_range_succ]
  rw [hmse]
  norm_num

/-- A closed witness for the early-exit theorem: with a zero threshold and a
perfect match at the first candidate, the second candidate of the two-pixel
scan keeps its unset confidence value. -/
theorem similarity_threshold_early_exit_witness :
    thresholdZeroImage.similarityThreshold = some 0 ∧
      (1, 0) ∈ (candList thresholdZeroImage blackImage1).drop 1 ∧
      (similarityScan thresholdZeroImage blackImage1 .rootMeanSquaredError).conf 1 0 =
        none := by
  have hthr : thrOf thresholdZeroImage = 0 := by
    norm_num [thrOf, thresholdZeroImage, mkImage]
  have htake : (candList thresholdZeroImage blackImage1).take 1 = [(0, 0)] := by decide
  have hb : (scanList thresholdZeroImage blackImage1 .rootMeanSquaredError
      (thrOf thresholdZeroImage) ((candList thresholdZeroImage blackImage1).take 1)
      scanStart).best ≤ (((0 : ℚ) : ℝ) : EReal) := by
    rw [htake]
    show (scanStep thresholdZeroImage blackImage1 .rootMeanSquaredError
      (thrOf thresholdZeroImage) 0 0 scanStart).best ≤ _
    unfold scanStep
    rw [if_neg (by
      rw [hthr]
      unfold scanStart
      intro hcontra
      rw [show (((0 : ℚ) : ℝ) : EReal) = ((0 : ℝ) : EReal) by norm_num] at hcontra
      have := EReal.coe_le_coe_iff.mp hcontra
      have hq : (MagickMaximumValue : ℚ) ≤ 0 := by exact_mod_cast this
      norm_num [MagickMaximumValue] at hq)]
    rw [scanUpdate_best, rmse_thresholdZero_zero]
    rw [if_pos (by
      unfold scanStart
      rw [show (0 : EReal) = ((0 : ℝ) : EReal) from rfl]
      exact EReal.coe_lt_coe_iff.mpr (by
        exact_mod_cast (by norm_num [MagickMaximumValue] : (0 : ℚ) < MagickMaximumValue)))]
    rw [show (((0 : ℚ) : ℝ) : EReal) = (0 : EReal) by norm_num]
  exact ⟨rfl, by decide, (similarity_threshold_early_exit thresholdZeroImage blackImage1
    .rootMeanSquaredError 0 1 (1, 0) rfl le_rfl (by decide) hb).1⟩

theorem skew_raw_red :
    (nccRawSum skewCrop spreadMatteReference CompositeChannels).2 .red = 8192 := by
  norm_num [nccRawSum, nccPixelVec, accumRows, rowSum, addVec, zeroVec, channelMean,
    slotValue, skewCrop, cropImage, skewedMatteImage, spreadMatteReference, mkImage,
    blackPixel, whitePixel, CompositeChannels, GetPixelAlpha, QuantumScale, QuantumRange,
    OpaqueOpacity, List.range_succ, Finset.sum_range_succ]

theorem skew_raw_green :
    (nccRawSum skewCrop spreadMatteReference CompositeChannels).2 .green = 8192 := by
  norm_num [nccRawSum, nccPixelVec, accumRows, rowSum, addVec, zeroVec, channelMean,
    slotValue, skewCrop, cropImage, skewedMatteImage, spreadMatteReference, mkImage,
    blackPixel, whitePixel, CompositeChannels, GetPixelAlpha, QuantumScale, QuantumRange,
    OpaqueOpacity, List.range_succ, Finset.sum_range_succ]

theorem skew_raw_blue :
    (nccRawSum skewCrop spreadMatteReference CompositeChannels).2 .blue = 8192 := by
  norm_num [nccRawSum, nccPixelVec, accumRows, rowSum, addVec, zeroVec, channelMean,
    slotValue, skewCrop, cropImage, skewedMatteImage, spreadMatteReference, mkImage,
    blackPixel, whitePixel, CompositeChannels, GetPixelAlpha, QuantumScale, QuantumRange,
    OpaqueOpacity, List.range_succ, Finset.sum_range_succ]

theorem skew_raw_opacity :
    (nccRawSum skewCrop spreadMatteReference CompositeChannels).2 .opacity = 0 := by
  norm_num [nccRawSum, nccPixelVec, accumRows, rowSum, addVec, zeroVec, channelMean,
    slotValue, skewCrop, cropImage, skewedMatteImage, spreadMatteReference, mkImage,
    blackPixel, whitePixel, CompositeChannels, GetPixelAlpha, QuantumScale, QuantumRange,
    OpaqueOpacity, List.range_succ, Finset.sum_range_succ]

theorem skew_variance_crop (s : Slot) (h : s = .red ∨ s = .green ∨ s = .blue) :
    channelVariance skewCrop s = 1 := by
  rcases h with h | h | h <;> subst h <;>
    norm_num [channelVariance, channelMean, slotValue, skewCrop, cropImage,
      skewedMatteImage, spreadMatteReference, mkImage, Finset.sum_range_succ]

theorem skew_variance_ref (s : Slot) (h : s = .red ∨ s = .green ∨ s = .blue) :
    channelVariance spreadMatteReference s = 65535 ^ 2 / 4 := by
  rcases h with h | h | h <;> subst h <;>
    norm_num [channelVariance, channelMean, slotValue, spreadMatteReference, mkImage,
      blackPixel, whitePixel, Finset.sum_range_succ]

theorem skew_sd_product (s : Slot) (h : s = .red ∨ s = .green ∨ s = .blue) :
    standardDeviation skewCrop s * standardDeviation spreadMatteReference s =
      (65535 : ℝ) / 2 := by
  unfold standardDeviation
  rw [skew_variance_crop s h, skew_variance_ref s h]
  rw [show ((1 : ℚ) : ℝ) = 1 by norm_num, Real.sqrt_one, one_mul]
  rw [show (((65535 : ℚ) ^ 2 / 4 : ℚ) : ℝ) = ((65535 : ℝ) / 2) ^ 2 by push_cast; ring]
  exact Real.sqrt_sq (by norm_num)

theorem skew_ncc_channel (s : Slot) (h : s = .red ∨ s = .green ∨ s = .blue)
    (hraw : (nccRawSum skewCrop spreadMatteReference CompositeChannels).2 s = 8192) :
    nccChannel skewCrop spreadMatteReference CompositeChannels s = 16384 := by
  unfold nccChannel
  rw [skew_sd_product s h, hraw]
  unfold PerceptibleReciprocal
  dsimp only
  rw [if_neg (show ¬((65535 : ℝ) / 2 < 0) by norm_num)]
  rw [if_pos (show ((MagickEpsilon : ℚ) : ℝ) ≤ 1 * ((65535 : ℝ) / 2) by
    rw [show ((MagickEpsilon : ℚ) : ℝ) = 1 / 10 ^ 15 by norm_num [MagickEpsilon]]
    norm_num)]
  norm_num [QuantumRange]

theorem skew_ncc_opacity :
    nccChannel skewCrop spreadMatteReference CompositeChannels .opacity = 0 := by
  unfold nccChannel
  rw [skew_raw_opacity]
  norm_num

theorem skew_ncc_composite :
    (GetNormalizedCrossCorrelationDistortion skewCrop spreadMatteReference
      CompositeChannels).2 .composite = Real.sqrt 201326592 := by
  unfold GetNormalizedCrossCorrelationDistortion
  dsimp only
  rw [if_pos rfl]
  rw [skew_ncc_channel .red (Or.inl rfl) skew_raw_red,
    skew_ncc_channel .green (Or.inr (Or.inl rfl)) skew_raw_green,
    skew_ncc_channel .blue (Or.inr (Or.inr rfl)) skew_raw_blue]
  have hflags : CompositeChannels.red = true ∧ CompositeChannels.green = true ∧
      CompositeChannels.blue = true ∧
      (CompositeChannels.opacity && skewCrop.matte) = true ∧
      (CompositeChannels.index && skewCrop.cmyk) = false := by decide
  rw [if_pos hflags.1, if_pos hflags.2.1, if_pos hflags.2.2.1,
    if_pos hflags.2.2.2.1, if_neg (by rw [hflags.2.2.2.2]; exact Bool.false_ne_true)]
  rw [skew_ncc_opacity]
  have hn : GetNumberChannels skewCrop CompositeChannels = 4 := by decide
  rw [hn]
  norm_num

theorem skew_score :
    scoreUsed skewedMatteImage spreadMatteReference .normalizedCrossCorrelation 0 0 =
      (1 : EReal) - ((Real.sqrt 201326592 : ℝ) : EReal) := by
  unfold scoreUsed
  rw [if_pos (Or.inl rfl)]
  unfold GetSimilarityMetric
  rw [if_neg (by decide)]
  unfold GetImageDistortion GetImageChannelDistortion
  rw [if_neg (by
    intro h
    exact absurd h.2 (by decide))]
  unfold metricVector
  dsimp only
  rw [show cropImage skewedMatteImage spreadMatteReference 0 0 = skewCrop from rfl]
  rw [skew_ncc_composite]

/-- The claim C8 is violated by the code: with the similarity-threshold
artifact absent (default `-1.0`), the normalized-cross-correlation scan of
the skewed matte image scores its first candidate below `-1` (the
alpha-weighted correlation exceeds two), so the early-exit check fires and
the second candidate offset is never scored — its confidence stays unset
even though the threshold was absent. -/
theorem similarity_negative_threshold_counterexample :
    skewedMatteImage.similarityThreshold = none ∧
      (1, 0) ∈ candList skewedMatteImage spreadMatteReference ∧
      ((similarityScan skewedMatteImage spreadMatteReference
        .normalizedCrossCorrelation).conf 0 0).isSome ∧
      (similarityScan skewedMatteImage spreadMatteReference
        .normalizedCrossCorrelation).conf 1 0 = none := by
  have hthr : thrOf skewedMatteImage = -1 := by
    norm_num [thrOf, skewedMatteImage, mkImage]
  have hsqrt2 : (2 : ℝ) ≤ Real.sqrt 201326592 := by
    have h4 : Real.sqrt 4 = 2 := by
      rw [show (4 : ℝ) = 2 ^ 2 by norm_num]
      exact Real.sqrt_sq (by norm_num)
    calc (2 : ℝ) = Real.sqrt 4 := h4.symm
      _ ≤ Real.sqrt 201326592 := Real.sqrt_le_sqrt (by norm_num)
  have hmax1 : (1 : ℝ) < ((MagickMaximumValue : ℚ) : ℝ) := by
    exact_mod_cast (by norm_num [MagickMaximumValue] : (1 : ℚ) < MagickMaximumValue)
  have hskip0 : ¬(scanStart.best ≤ ((thrOf skewedMatteImage : ℝ) : EReal)) := by
    rw [hthr]
    unfold scanStart
    intro hcontra
    have := EReal.coe_le_coe_iff.mp hcontra
    have hq : (MagickMaximumValue : ℚ) ≤ -1 := by exact_mod_cast this
    norm_num [MagickMaximumValue] at hq
  have hscore : scoreUsed skewedMatteImage spreadMatteReference
      .normalizedCrossCorrelation 0 0 =
      ((1 - Real.sqrt 201326592 : ℝ) : EReal) := by
    rw [skew_score, ← EReal.coe_one, ← EReal.coe_sub]
  have hs1 : scanStep skewedMatteImage spreadMatteReference .normalizedCrossCorrelation
      (thrOf skewedMatteImage) 0 0 scanStart =
      scanUpdate .normalizedCrossCorrelation 0 0
        (scoreUsed skewedMatteImage spreadMatteReference
          .normalizedCrossCorrelation 0 0) scanStart := by
    unfold scanStep
    rw [if_neg hskip0]
  have hbest1 : (scanStep skewedMatteImage spreadMatteReference
      .normalizedCrossCorrelation (thrOf skewedMatteImage) 0 0 scanStart).best =
      ((1 - Real.sqrt 201326592 : ℝ) : EReal) := by
    rw [hs1, scanUpdate_best, hscore]
    rw [if_pos (by
      unfold scanStart
      exact EReal.coe_lt_coe_iff.mpr (by
        have := Real.sqrt_nonneg (201326592 : ℝ)
        linarith))]
  have hskip1 : (scanStep skewedMatteImage spreadMatteReference
      .normalizedCrossCorrelation (thrOf skewedMatteImage) 0 0 scanStart).best ≤
      ((thrOf skewedMatteImage : ℝ) : EReal) := by
    rw [hbest1, hthr]
    refine EReal.coe_le_coe_iff.mpr ?_
    rw [show ((-1 : ℚ) : ℝ) = -1 by norm_num]
    linarith
  have hscan : similarityScan skewedMatteImage spreadMatteReference
      .normalizedCrossCorrelation =
      scanStep skewedMatteImage spreadMatteReference .normalizedCrossCorrelation
        (thrOf skewedMatteImage) 0 1
        (scanStep skewedMatteImage spreadMatteReference .normalizedCrossCorrelation
          (thrOf skewedMatteImage) 0 0 scanStart) := by
    unfold similarityScan
    rw [show candHeight skewedMatteImage spreadMatteReference = 1 by decide]
    rw [show List.range 1 = [0] from rfl, List.foldl_cons, List.foldl_nil]
    unfold scanRow
    rw [if_neg hskip0]
    rw [show candWidth skewedMatteImage spreadMatteReference = 2 by decide]
    rw [show List.range 2 = [0, 1] from rfl, List.foldl_cons, List.foldl_cons,
      List.foldl_nil]
  refine ⟨rfl, by decide, ?_, ?_⟩
  · rw [hscan, scanStep_skip _ _ _ _ _ _ _ hskip1, hs1]
    exact scanUpdate_conf_self _ _ _ _ _
  · rw [hscan, scanStep_skip _ _ _ _ _ _ _ hskip1, hs1]
    rw [scanUpdate_conf_other _ _ _ _ _ 1 0 (by simp)]
    rfl

end Compare
